import Mathlib

/-!
Verification of the Agentic Studio Pro core pipeline.

This file is a shallow embedding in Lean 4 of the closed-loop orchestrator
of the repository: the Gemini completion client retry logic
(`GeminiService.retryWithBackoff`), the response parser
(`parseAgentResponse`), the build validator (`CompilationService`), and the
`AgentOrchestrator` state machine with its self-healing Patch loop.

Modelling conventions:
* Strings are `List Char` (`Str`); JavaScript `includes`/`indexOf`/`replace`
  (first occurrence) are implemented over `List Char`.
* The network call `geminiService.sendPrompt` composed with
  `parseAgentResponse` is abstracted by an oracle: a list of outcomes, each
  either a thrown error message or a parsed payload.  Prompt construction
  (`buildAgentPrompt`, `SYSTEM_PROMPT`) and the conversation history only
  feed that call, so they are absorbed by the oracle and not modelled.
* JavaScript exceptions are an `Option String` error slot threaded through
  the state; `try`/`catch` clears it.
* Timestamps (`new Date().toISOString()`) and `generateId()` are
  nondeterministic; they are passed in as parameters.
-/

/-- Strings modelled as character lists. -/
abbrev Str := List Char

/-- Literal coercion from Lean string literals. -/
def str (x : String) : Str := x.data

/-- JS whitespace class `\s` (restricted to its ASCII part). -/
def isSpaceChar (c : Char) : Bool :=
  c = ' ' || c = '\t' || c = '\n' || c = '\r' || c = '\x0b' || c = '\x0c'

/-- JS `\w` word-character class: ASCII letters, digits, underscore. -/
def isWordChar (c : Char) : Bool :=
  c.isAlphanum || c = '_'

/-- `String.prototype.trim`: strip leading and trailing whitespace. -/
def trimStr (l : Str) : Str :=
  ((l.dropWhile isSpaceChar).reverse.dropWhile isSpaceChar).reverse

/-- Index of the first occurrence of `p` in `l` (JS `indexOf` when viewed
through `Option`): `some i` when `p` occurs first at index `i`. -/
def findSub (p : Str) : Str → Option Nat
  | [] => if p.isPrefixOf ([] : Str) then some 0 else none
  | c :: rest =>
    if p.isPrefixOf (c :: rest) then some 0
    else (findSub p rest).map (· + 1)

/-- JS `String.prototype.includes`. -/
def containsSub (p l : Str) : Bool := (findSub p l).isSome

/-- `p` occurs in `l` starting at index `i` (with the match fully inside `l`). -/
def occursAt (p l : Str) (i : Nat) : Bool :=
  decide (i + p.length ≤ l.length) && p.isPrefixOf (l.drop i)

/-- ECMA-262 GetSubstitution for a plain-string search value (no capture
groups, no named captures): in the replacement template, a dollar sign
(code 36) followed by another dollar sign yields one dollar sign; followed
by an ampersand (code 38), the matched text; followed by a backquote
(code 96), the part of the subject before the match (`pre`); followed by
code 39, the part after the match (`suf`).  Every other character passes
through verbatim — in particular a dollar sign before digits, since a
string pattern has no capture groups, and a trailing dollar sign. -/
def getSubstitution (matched pre suf : Str) : Str → Str
  | [] => []
  | [c] => [c]
  | c :: d :: rest =>
    if c.toNat = 36 then
      if d.toNat = 36 then c :: getSubstitution matched pre suf rest
      else if d.toNat = 38 then matched ++ getSubstitution matched pre suf rest
      else if d.toNat = 96 then pre ++ getSubstitution matched pre suf rest
      else if d.toNat = 39 then suf ++ getSubstitution matched pre suf rest
      else c :: getSubstitution matched pre suf (d :: rest)
    else c :: getSubstitution matched pre suf (d :: rest)

/-- JS `String.prototype.replace` with a plain-string pattern: replace the
first occurrence only, expanding dollar sequences in the replacement via
GetSubstitution (the matched text is the pattern itself, since a string
pattern matches literally); if the pattern does not occur, return the
string unchanged. -/
def replaceFirst (l p r : Str) : Str :=
  match findSub p l with
  | none => l
  | some i => l.take i ++ getSubstitution p (l.take i) (l.drop (i + p.length)) r ++
      l.drop (i + p.length)

/-- JS `String.prototype.split` with a single-character separator. -/
def splitOnChar (sep : Char) : Str → List Str
  | [] => [[]]
  | c :: rest =>
    if c = sep then [] :: splitOnChar sep rest
    else
      match splitOnChar sep rest with
      | [] => [[c]]
      | l :: ls => (c :: l) :: ls

/-- Count occurrences of a character (JS `(s.match(/c/g) || []).length`). -/
def countChar (c : Char) (l : Str) : Nat := l.countP (· = c)

/-- JS `String.prototype.lastIndexOf` for a single character, defaulting to
`0` when absent (callers only use it when the character is present). -/
def lastIndexOfChar (c : Char) (l : Str) : Nat :=
  match findSub [c] l.reverse with
  | none => 0
  | some j => l.length - 1 - j

/-- Decimal rendering of a `Nat` (JS template-literal interpolation). -/
def strOfNat (n : Nat) : Str := (toString n).data

/-- JS `a.join(sep)` on a list of strings. -/
def joinWith (sep : Str) (ls : List Str) : Str := List.intercalate sep ls

/-! ## GeminiService retry logic (`retryWithBackoff`) -/

/-- Retry configuration of `GeminiService`. -/
structure RetryConfig where
  maxRetries : Nat
  initialDelay : Nat
  maxDelay : Nat
deriving Repr, DecidableEq

/-- The fixed configuration in `GeminiService.retryConfig`. -/
def geminiRetryConfig : RetryConfig := ⟨3, 1000, 10000⟩

/-- Error classification in `retryWithBackoff`: an error is an
authentication error (not retried) when its message contains
`"API key"` or `"401"`. -/
def isAuthError (msg : Str) : Bool :=
  containsSub (str "API key") msg || containsSub (str "401") msg

/-- The body of `retryWithBackoff`: `f k` is the outcome of the `k`-th call
of the wrapped function (`k = 0` is the initial attempt).  `remaining` is
`maxRetries - attempt`, so `remaining = 0` exactly when
`attempt === maxRetries` in the source.  Returns the final outcome and the
list of delays waited (in order). -/
def retryAux {α : Type} (f : Nat → Except Str α) (maxDelay : Nat) :
    Nat → Nat → Nat → Except Str α × List Nat
  | attempt, remaining, delay =>
    match f attempt with
    | .ok v => (.ok v, [])
    | .error e =>
      if isAuthError e then (.error e, [])
      else
        match remaining with
        | 0 => (.error e, [])
        | r + 1 =>
          let rest := retryAux f maxDelay (attempt + 1) r (min (delay * 2) maxDelay)
          (rest.1, delay :: rest.2)

/-- `GeminiService.retryWithBackoff`: up to `maxRetries` retries after the
initial attempt, doubling the delay each time, capped at `maxDelay`;
authentication errors are rethrown immediately. -/
def retryWithBackoff {α : Type} (cfg : RetryConfig) (f : Nat → Except Str α) :
    Except Str α × List Nat :=
  retryAux f cfg.maxDelay 0 cfg.maxRetries cfg.initialDelay

/-- The delay sequence produced by starting at `d` and doubling with cap
`10000` (the Gemini `maxDelay`). -/
def backoffSeq : Nat → Nat → List Nat
  | 0, _ => []
  | n + 1, d => d :: backoffSeq n (min (d * 2) 10000)

/-! ## Response parser (`parseAgentResponse` in `agentPrompts.ts`) -/

/-- The agent pipeline phases (`AgentPhase` in `types.ts`). -/
inductive AgentPhase where
  | IDLE
  | PLANNING
  | DESIGNING
  | ARCHITECTING
  | CODING
  | PATCHING
  | READY
deriving Repr, DecidableEq

/-- Result of `parseAgentResponse`, parameterised by the abstract result
type of `JSON.parse`: either a successfully parsed value, or the fallback
object `\x7b thought, output, raw: true \x7d` built for unstructured
responses. -/
inductive ParseResult (α : Type) where
  | parsed (value : α)
  | fallback (thought : Str) (output : Str) (raw : Bool)
deriving Repr, DecidableEq

/-- The regex match `rawResponse.match(/```json\s*([\s\S]*?)\s*```/)` of
`parseAgentResponse`: find the first occurrence of the literal
` ```json `, then the first subsequent ` ``` `; the captured group is the
text between them with surrounding whitespace stripped (the leading `\s*`
is greedy, the lazy body makes the trailing `\s*` maximal).  If the first
` ```json ` has no subsequent ` ``` ` then no later one does either (any
later ` ```json ` contains ` ``` `), so the whole regex fails. -/
def extractFenced (raw : Str) : Option Str :=
  match findSub (str "```json") raw with
  | none => none
  | some i =>
    let rest := raw.drop (i + 7)
    match findSub (str "```") rest with
    | none => none
    | some j => some (trimStr (rest.take j))

/-- `parseAgentResponse(rawResponse, phase)`: try the fenced JSON block
first; if it is absent or fails to parse (the `catch` only warns), try the
whole response; if that also fails, return the fallback payload with
`raw: true` carrying the response verbatim.  `JSON.parse` is abstracted by
`jsonParse`; a `none` result stands for a thrown `SyntaxError`.  The
`phase` argument is unused by the source function. -/
def parseAgentResponse {α : Type} (jsonParse : Str → Option α)
    (phase : AgentPhase) (rawResponse : Str) : ParseResult α :=
  let whole : ParseResult α :=
    match jsonParse rawResponse with
    | some v => .parsed v
    | none => .fallback (str "Extracted from unstructured response") rawResponse true
  match extractFenced rawResponse with
  | some block =>
    match jsonParse block with
    | some v => .parsed v
    | none => whole
  | none => whole

/-! ## Build validator (`compilationService.ts`) -/

/-- Diagnostic kinds (`type: 'syntax' | 'type' | 'import' | 'runtime'`). -/
inductive DiagType where
  | syntaxErr
  | typeErr
  | importErr
  | runtimeErr
deriving Repr, DecidableEq

/-- A single validator diagnostic. -/
structure Diag where
  file : Str
  line : Nat
  column : Nat
  message : Str
  type : DiagType
deriving Repr, DecidableEq

/-- `CompilationResult` of `types.ts`.  The `errors` field is optional in
the source and absent on success; that is modelled as the empty list. -/
structure CompilationResult where
  success : Bool
  stdout : Str
  stderr : Str
  exit_code : Nat
  errors : List Diag
deriving Repr, DecidableEq

/-- The `lazyPatterns` list of `analyzeFile` (forbidden placeholders). -/
def lazyPatterns : List Str :=
  [str "// ... rest of code", str "// TODO:", str "// Implement later",
   str "// Add more", str "Lorem ipsum", str "Sample Product 1"]

/-- Message of a forbidden-placeholder diagnostic. -/
def forbiddenMsg (pattern : Str) : Str :=
  str "Forbidden placeholder detected: \"" ++ pattern
    ++ str "\". All code must be complete and functional."

/-- Import-line checks of `analyzeFile` (recharts named-import signature and
placeholder imports), in source order. -/
def importErrors (filePath ln : Str) (lineNumber : Nat) : List Diag :=
  if containsSub (str "import") ln && containsSub (str "from") ln then
    (if containsSub (str "recharts") ln && containsSub (str "LineChart") ln then
      [⟨filePath, lineNumber, (findSub (str "LineChart") ln).getD 0,
        str "Module \"recharts\" has no exported member \x27LineChart\x27. Did you mean \x27Line\x27?",
        DiagType.importErr⟩]
    else []) ++
    (if containsSub (str "// Import") ln || containsSub (str "TODO") ln then
      [⟨filePath, lineNumber, 0,
        str "Placeholder import detected. Code must be complete.", DiagType.syntaxErr⟩]
    else [])
  else []

/-- Forbidden-placeholder checks of `analyzeFile`: one diagnostic per
matching pattern, in pattern order. -/
def lazyErrors (filePath ln : Str) (lineNumber : Nat) : List Diag :=
  (lazyPatterns.filter (fun p => containsSub p ln)).map fun p =>
    ⟨filePath, lineNumber, (findSub p ln).getD 0, forbiddenMsg p, DiagType.syntaxErr⟩

/-- Unmatched-brace heuristic of `analyzeFile`. -/
def braceErrors (filePath ln : Str) (lineNumber : Nat) : List Diag :=
  let openBraces := countChar '\x7b' ln
  let closeBraces := countChar '\x7d' ln
  if openBraces ≠ closeBraces && closeBraces > openBraces then
    [⟨filePath, lineNumber, lastIndexOfChar '\x7d' ln,
      str "Unexpected token \x27\x7d\x27", DiagType.syntaxErr⟩]
  else []

/-- The regex `^\w+:\s*\w+\s*$` used by the missing-semicolon heuristic. -/
def matchesInterfaceField (l : Str) : Bool :=
  let w1 := l.takeWhile isWordChar
  match l.drop w1.length with
  | ':' :: rest =>
    let r2 := rest.dropWhile isSpaceChar
    let w2 := r2.takeWhile isWordChar
    decide (w1 ≠ []) && decide (w2 ≠ []) && (r2.drop w2.length).all isSpaceChar
  | _ => false

/-- Missing-semicolon heuristic of `analyzeFile`. -/
def semicolonErrors (filePath ln : Str) (lineNumber : Nat) : List Diag :=
  if matchesInterfaceField (trimStr ln) && !containsSub (str ";") ln
      && !containsSub (str "\x7b") ln then
    [⟨filePath, lineNumber, ln.length,
      str "Missing semicolon in interface definition", DiagType.syntaxErr⟩]
  else []

/-- All checks of `analyzeFile` for one line, in push order. -/
def analyzeLine (filePath ln : Str) (lineNumber : Nat) : List Diag :=
  importErrors filePath ln lineNumber ++ lazyErrors filePath ln lineNumber
    ++ braceErrors filePath ln lineNumber ++ semicolonErrors filePath ln lineNumber

/-- `CompilationService.analyzeFile`: run the per-line checks over each
line (1-based line numbers). -/
def analyzeFile (filePath content : Str) : List Diag :=
  ((splitOnChar '\n' content).enum.map
    (fun p => analyzeLine filePath p.2 (p.1 + 1))).flatten

/-- File kinds of `ProjectState.file_system` entries. -/
inductive FType where
  | file
  | directory
deriving Repr, DecidableEq

/-- A `ProjectState.file_system` entry. -/
structure FileEntry where
  path : Str
  content : Option Str
  type : FType
  lastModified : Option Str
deriving Repr, DecidableEq

/-- The path filter `file.path.match(/\.(tsx?|jsx?)$/)`. -/
def hasSourceExt (path : Str) : Bool :=
  (str ".ts").isSuffixOf path || (str ".tsx").isSuffixOf path
    || (str ".js").isSuffixOf path || (str ".jsx").isSuffixOf path

/-- The per-file guard of `staticAnalysis`: `file.type === 'file'`, truthy
content (JS: the empty string is falsy), and a source-file path. -/
def isAnalyzedFile (f : FileEntry) : Bool :=
  f.type = FType.file &&
    (match f.content with
     | none => false
     | some c => decide (c ≠ [])) &&
    hasSourceExt f.path

/-- `CompilationService.staticAnalysis` over a file set. -/
def staticAnalysis (fs : List FileEntry) : List Diag :=
  (fs.map fun f =>
    if isAnalyzedFile f then analyzeFile f.path (f.content.getD []) else []).flatten

/-- `CompilationService.formatError`. -/
def formatError (e : Diag) : Str :=
  let typeName : Str :=
    match e.type with
    | .syntaxErr => str "SYNTAX"
    | .typeErr => str "TYPE"
    | .importErr => str "IMPORT"
    | .runtimeErr => str "RUNTIME"
  str "\nERROR in " ++ e.file ++ str ":" ++ strOfNat e.line ++ str ":"
    ++ strOfNat e.column ++ str "\n" ++ typeName ++ str " ERROR: " ++ e.message
    ++ str "\n\n  " ++ strOfNat e.line ++ str " | <source line would go here>\n    "
    ++ List.replicate e.column ' ' ++ str "^\n"

/-- `CompilationService.validateCode` on a file set.  The source wraps the
analysis in `try`/`catch` with an `exit_code: 2` branch for an internal
validator failure; the analysis is synchronous and total, so that branch is
unreachable and not modelled. -/
def validateCode (fs : List FileEntry) : CompilationResult :=
  let validationErrors := staticAnalysis fs
  if validationErrors ≠ [] then
    { success := false
      stdout := str "Build started...\nAnalyzing files..."
      stderr := joinWith (str "\n") (validationErrors.map formatError)
      exit_code := 1
      errors := validationErrors }
  else
    { success := true
      stdout := joinWith (str "\n")
        [str "Build started...", str "Analyzing dependencies...",
         str "✓ TypeScript compilation successful", str "✓ All components validated",
         str "✓ Build completed in 3.2s", str "Dev server ready at http://localhost:3000"]
      stderr := []
      exit_code := 0
      errors := [] }

/-- The fatal diagnostic patterns of `isRecoverableError`. -/
def fatalPatterns : List Str :=
  [str "ENOSPC", str "ENOMEM", str "permission denied",
   str "cannot find module \x27@/"]

/-- Lowercasing used by `isRecoverableError` (`toLowerCase`). -/
def toLowerStr (l : Str) : Str := l.map Char.toLower

/-- `CompilationService.isRecoverableError`: `false` on success; otherwise
`true` unless the lowercased `stderr` contains one of the (lowercased)
fatal patterns. -/
def isRecoverableError (result : CompilationResult) : Bool :=
  if result.success then false
  else
    !(fatalPatterns.any fun p =>
      containsSub (toLowerStr p) (toLowerStr result.stderr))

/-! ## AgentOrchestrator data model -/

/-- Log entry levels (`LogEntry.type` in `types.ts`). -/
inductive LogType where
  | info
  | success
  | error
  | system
deriving Repr, DecidableEq

/-- A log entry as produced by `createLog(agent, message, type, codeBlock?)`.
The generated `id` and `timestamp` fields are nondeterministic and carry no
information used anywhere; they are omitted. -/
structure LogEntry where
  agent : Str
  message : Str
  type : LogType
  codeBlock : Option Str
deriving Repr, DecidableEq

/-- `createLog` of `simulationService` (signature known from its callers). -/
def createLog (agent message : Str) (type : LogType) (codeBlock : Option Str) : LogEntry :=
  ⟨agent, message, type, codeBlock⟩

/-- The part of a parsed Plan-phase payload the orchestrator reads
(`parsed.plan.features?.length`, `parsed.plan.dataModels?.length`). -/
structure Plan where
  features : Option (List Str)
  dataModels : Option (List Str)
deriving Repr, DecidableEq

/-- The part of a parsed Design-phase payload the orchestrator reads
(`theme`, `Object.keys(colorPalette)`, `typography.heading`,
`typography.body`). -/
structure DesignSystem where
  colorPaletteKeys : List Str
  typographyHeading : Str
  typographyBody : Str
  theme : Str
deriving Repr, DecidableEq

/-- A generated file of a Coding-phase payload (`parsed.files`). -/
structure CodeFile where
  path : Str
  content : Str
deriving Repr, DecidableEq

/-- A surgical fix of a Patching-phase payload (`parsed.fixes`); named `PatchFix` here because `Fix` exists in Mathlib. -/
structure PatchFix where
  file : Str
  line : Nat
  before : Str
  after : Str
deriving Repr, DecidableEq

/-- The fields of a parsed agent response that the orchestrator reads.
`Option` models JS field absence (`undefined` is falsy; objects and arrays,
including empty ones, are truthy). -/
structure Parsed where
  thought : Option Str
  plan : Option Plan
  design_system : Option DesignSystem
  file_system : Option (List FileEntry)
  files : Option (List CodeFile)
  request_human_help : Bool
  fixes : Option (List PatchFix)
deriving Repr, DecidableEq

/-- A payload with every optional field absent. -/
def emptyParsed : Parsed := ⟨none, none, none, none, none, false, none⟩

/-- One `terminal_logs` entry (a recorded build attempt). -/
structure TermLog where
  stdout : List Str
  stderr : List Str
  exit_code : Option Nat
  timestamp : Str
deriving Repr, DecidableEq

/-- `ProjectState` of `types.ts` (the shared state of one run). -/
structure ProjectState where
  id : Str
  name : Str
  description : Str
  status : AgentPhase
  user_prompt : Str
  plan : Option Plan
  design_system : Option DesignSystem
  file_system : List FileEntry
  terminal_logs : List TermLog
  iteration_count : Nat
  max_iterations : Nat
  files : List Str
  dependencies : List Str
  logs : List LogEntry
  generatedCode : Bool
deriving Repr, DecidableEq

/-- `AgentOrchestrator.createInitialState`. -/
def createInitialState (id : Str) : ProjectState :=
  { id := id
    name := str "Untitled Project"
    description := []
    status := AgentPhase.IDLE
    user_prompt := []
    plan := none
    design_system := none
    file_system := []
    terminal_logs := []
    iteration_count := 0
    max_iterations := 3
    files := []
    dependencies := []
    logs := []
    generatedCode := false }

/-- The consumer callbacks fired by the orchestrator, recorded as events in
emission order (`onLog`, `onPhaseChange`, optional `onStateUpdate`,
`onComplete`, `onError`). -/
inductive Event where
  | log (entry : LogEntry)
  | phaseChange (phase : AgentPhase)
  | stateUpdate (state : ProjectState)
  | complete
  | error (msg : Str)
deriving Repr, DecidableEq

/-- Orchestrator operating modes. -/
inductive AgentMode where
  | simulation
  | ai
  | hybrid
deriving Repr, DecidableEq

/-- `AgentWorkflowConfig`: the mode plus whether the optional
`onStateUpdate` callback is configured (the callbacks themselves are
modelled as events). -/
structure Config where
  mode : AgentMode
  hasStateUpdate : Bool
deriving Repr, DecidableEq

/-- A step of `SIMULATION_STEPS` (the scripted demo data lives outside the
orchestrator; only its shape — a phase and a log entry per step — is used). -/
structure SimStep where
  phase : AgentPhase
  log : LogEntry
deriving Repr, DecidableEq

-- Decidable equality for oracle entries.
deriving instance DecidableEq for Except

/-- The orchestrator state during one run: the shared `ProjectState`, the
current phase field, the remaining completion-oracle entries, the events
emitted so far, the pending JS exception (if any), and the running flag. -/
structure St where
  ps : ProjectState
  currentPhase : AgentPhase
  oracle : List (Except Str Parsed)
  events : List Event
  err : Option Str
  isRunning : Bool
deriving Repr, DecidableEq

/-- Append an emitted event. -/
def emitEvent (st : St) (e : Event) : St :=
  { st with events := st.events ++ [e] }

/-- `this.config.onLog(createLog(...))`. -/
def emitLog (st : St) (agent message : Str) (type : LogType) : St :=
  emitEvent st (Event.log (createLog agent message type none))

/-- `onLog` with a code block (the architect file-tree preview). -/
def emitLogCode (st : St) (agent message : Str) (type : LogType) (code : Str) : St :=
  emitEvent st (Event.log (createLog agent message type (some code)))

/-- `this.currentPhase = p; this.projectState.status = p;
this.config.onPhaseChange(p)`. -/
def setPhase (st : St) (p : AgentPhase) : St :=
  emitEvent
    { st with currentPhase := p, ps := { st.ps with status := p } }
    (Event.phaseChange p)

/-- `notifyStateUpdate`: fire `onStateUpdate` with the state after the
mutation, when configured. -/
def notifyStateUpdate (cfg : Config) (st : St) : St :=
  if cfg.hasStateUpdate then emitEvent st (Event.stateUpdate st.ps) else st

/-- One `sendPrompt` + `parseAgentResponse` exchange, drawn from the
oracle: an `Except.error` entry is a thrown completion error, an
`Except.ok` entry the parsed payload.  An exhausted oracle behaves as a
thrown error (a run consumes finitely many completions). -/
def sendPromptO (st : St) : St × Option Parsed :=
  match st.oracle with
  | [] => ({ st with err := some (str "no response") }, none)
  | .error e :: rest => ({ st with oracle := rest, err := some e }, none)
  | .ok p :: rest => ({ st with oracle := rest }, some p)

/-! ## AgentOrchestrator phases -/

/-- The `💭`-prefixed thought log emitted when `parsed.thought` is present. -/
def logThought (st : St) (agent : Str) (parsed : Parsed) : St :=
  match parsed.thought with
  | some t => emitLog st agent (str "💭 " ++ t) LogType.info
  | none => st

/-- `executePlanningPhase`. -/
def executePlanningPhase (cfg : Config) (st : St) : St :=
  if st.err.isSome then st
  else if !st.isRunning then st
  else
    let st := setPhase st AgentPhase.PLANNING
    let st := emitLog st (str "PLANNER") (str "🎯 Starting Planning Phase...") LogType.info
    let st := emitLog st (str "PLANNER")
      (str "Analyzing user intent and defining requirements...") LogType.info
    let pr := sendPromptO st
    match pr.2 with
    | none => pr.1
    | some parsed =>
      let st := logThought pr.1 (str "PLANNER") parsed
      let st :=
        match parsed.plan with
        | some plan =>
          let st := { st with ps := { st.ps with plan := some plan } }
          let nFeatures := (plan.features.getD []).length
          let nModels := (plan.dataModels.getD []).length
          let st := emitLog st (str "PLANNER")
            (str "✓ Defined " ++ strOfNat nFeatures ++ str " core features") LogType.success
          let st := emitLog st (str "PLANNER")
            (str "✓ Created " ++ strOfNat nModels ++ str " data models") LogType.success
          emitLog st (str "PLANNER")
            (str "✓ Generated mock data schema (Mock Data Mandate enforced)") LogType.success
        | none => st
      notifyStateUpdate cfg st

/-- `executeDesignPhase`. -/
def executeDesignPhase (cfg : Config) (st : St) : St :=
  if st.err.isSome then st
  else if !st.isRunning then st
  else
    let st := setPhase st AgentPhase.DESIGNING
    let st := emitLog st (str "DESIGNER") (str "🎨 Starting Design Phase...") LogType.info
    let st := emitLog st (str "DESIGNER")
      (str "Performing \"Vibe Check\" and creating design system...") LogType.info
    let pr := sendPromptO st
    match pr.2 with
    | none => pr.1
    | some parsed =>
      let st := logThought pr.1 (str "DESIGNER") parsed
      let st :=
        match parsed.design_system with
        | some ds =>
          let st := { st with ps := { st.ps with design_system := some ds } }
          let st := emitLog st (str "DESIGNER")
            (str "✓ Theme: " ++ ds.theme) LogType.success
          let st := emitLog st (str "DESIGNER")
            (str "✓ Color Palette: " ++ strOfNat ds.colorPaletteKeys.length
              ++ str " semantic tokens") LogType.success
          emitLog st (str "DESIGNER")
            (str "✓ Typography: " ++ ds.typographyHeading ++ str " / "
              ++ ds.typographyBody) LogType.success
        | none => st
      notifyStateUpdate cfg st

/-- `executeArchitecturePhase`. -/
def executeArchitecturePhase (cfg : Config) (st : St) : St :=
  if st.err.isSome then st
  else if !st.isRunning then st
  else
    let st := setPhase st AgentPhase.ARCHITECTING
    let st := emitLog st (str "ARCHITECT") (str "🏗️ Starting Architecture Phase...") LogType.info
    let st := emitLog st (str "ARCHITECT")
      (str "Scaffolding file system and project structure...") LogType.info
    let pr := sendPromptO st
    match pr.2 with
    | none => pr.1
    | some parsed =>
      let st := logThought pr.1 (str "ARCHITECT") parsed
      let st :=
        match parsed.file_system with
        | some fsys =>
          let st := { st with ps := { st.ps with file_system := fsys } }
          let fileCount := (fsys.filter (fun f => f.type = FType.file)).length
          let dirCount := (fsys.filter (fun f => f.type = FType.directory)).length
          let st := emitLog st (str "ARCHITECT")
            (str "✓ Created " ++ strOfNat fileCount ++ str " files and "
              ++ strOfNat dirCount ++ str " directories") LogType.success
          let st := emitLog st (str "ARCHITECT")
            (str "✓ Next.js 14 App Router structure (src/app/)") LogType.success
          let st := emitLog st (str "ARCHITECT")
            (str "✓ Mock data file: src/lib/mockData.ts") LogType.success
          let treePreview := joinWith (str "\n") ((fsys.take 5).map (fun f => f.path))
          emitLogCode st (str "ARCHITECT") (str "File tree preview:") LogType.info treePreview
        | none => st
      notifyStateUpdate cfg st

/-- Merge one generated file into the file set (`executeCodingPhase`):
update the first entry with the same path in place, else push a new file
entry. -/
def mergeCodeFile (now : Str) : List FileEntry → CodeFile → List FileEntry
  | [], cf => [⟨cf.path, some cf.content, FType.file, some now⟩]
  | f :: rest, cf =>
    if f.path = cf.path then
      ⟨f.path, some cf.content, f.type, some now⟩ :: rest
    else
      f :: mergeCodeFile now rest cf

/-- `executeCodingPhase`. -/
def executeCodingPhase (cfg : Config) (now : Str) (st : St) : St :=
  if st.err.isSome then st
  else if !st.isRunning then st
  else
    let st := setPhase st AgentPhase.CODING
    let st := emitLog st (str "CODER") (str "💻 Starting Coding Phase...") LogType.info
    let st := emitLog st (str "CODER")
      (str "Implementing full application (Anti-Laziness Protocol enforced)...") LogType.info
    let pr := sendPromptO st
    match pr.2 with
    | none => pr.1
    | some parsed =>
      let st := logThought pr.1 (str "CODER") parsed
      let st :=
        match parsed.files with
        | some files =>
          let fsys := files.foldl (mergeCodeFile now) st.ps.file_system
          let st := { st with ps :=
            { st.ps with file_system := fsys, generatedCode := true } }
          let st := emitLog st (str "CODER")
            (str "✓ Generated " ++ strOfNat files.length
              ++ str " complete, functional files") LogType.success
          let st := emitLog st (str "CODER")
            (str "✓ All code is copy-pasteable and ready to run") LogType.success
          emitLog st (str "CODER")
            (str "✓ Design tokens integrated into components") LogType.success
        | none => st
      notifyStateUpdate cfg st

/-! ## Patch phase and the self-healing loop -/

/-- One fix application of `executePatchingPhase`: find the first file
whose path equals `fix.file`; if it exists and has truthy (non-empty)
content, replace the first occurrence of `fix.before` by `fix.after` and
update `lastModified`.  Returns the new file set and whether the fix was
applied. -/
def applyFix (now : Str) : List FileEntry → PatchFix → List FileEntry × Bool
  | [], _ => ([], false)
  | f :: rest, fix =>
    if f.path = fix.file then
      match f.content with
      | some c =>
        if c ≠ [] then
          (⟨f.path, some (replaceFirst c fix.before fix.after), f.type, some now⟩ :: rest,
            true)
        else (f :: rest, false)
      | none => (f :: rest, false)
    else
      let r := applyFix now rest fix
      (f :: r.1, r.2)

/-- The `parsed.fixes.forEach((fix, index) => ...)` loop: apply fixes in
order, each on the already-updated file set, logging each applied fix. -/
def applyFixesFrom (now : Str) : Nat → List FileEntry → List Event → List PatchFix →
    List FileEntry × List Event
  | _, fs, evs, [] => (fs, evs)
  | idx, fs, evs, fix :: rest =>
    let r := applyFix now fs fix
    let evs :=
      if r.2 then
        evs ++ [Event.log (createLog (str "PATCHER")
          (str "  " ++ strOfNat (idx + 1) ++ str ". " ++ fix.file ++ str ":"
            ++ strOfNat fix.line ++ str " - Applied surgical fix")
          LogType.success none)]
      else evs
    applyFixesFrom now (idx + 1) r.1 evs rest

/-- `executePatchingPhase`: build a patch from the most recent build log
(abstracted by the oracle), stop the loop on `request_human_help` by
forcing `iteration_count = max_iterations`, otherwise apply the fixes. -/
def executePatchingPhase (cfg : Config) (now : Str) (st : St) : St :=
  if st.err.isSome then st
  else if !st.isRunning then st
  else
    let st := setPhase st AgentPhase.PATCHING
    let st := emitLog st (str "PATCHER")
      (str "🔍 Analyzing error logs (Abductive Reasoning)...") LogType.info
    let pr := sendPromptO st
    match pr.2 with
    | none => pr.1
    | some parsed =>
      let st := logThought pr.1 (str "PATCHER") parsed
      if parsed.request_human_help then
        let st := emitLog st (str "PATCHER")
          (str "🆘 Complex error detected. Human review recommended.") LogType.error
        { st with ps := { st.ps with iteration_count := st.ps.max_iterations } }
      else
        let st :=
          match parsed.fixes with
          | some fixes =>
            let st := emitLog st (str "PATCHER")
              (str "✓ Identified " ++ strOfNat fixes.length ++ str " fixes")
              LogType.success
            let r := applyFixesFrom now 0 st.ps.file_system [] fixes
            let st := { st with ps := { st.ps with file_system := r.1 } }
            { st with events := st.events ++ r.2 }
          | none => st
        notifyStateUpdate cfg st

/-- Record a validation attempt in `terminal_logs`. -/
def pushTermLog (now : Str) (r : CompilationResult) (st : St) : St :=
  { st with ps := { st.ps with terminal_logs := st.ps.terminal_logs ++
      [⟨splitOnChar '\n' r.stdout, splitOnChar '\n' r.stderr, some r.exit_code, now⟩] } }

/-- The first half of one iteration of the self-healing `while` loop in
`executeCompilationAndHealing`: increment the counter, log the attempt,
and run the Patch phase. -/
def healPatched (cfg : Config) (now : Str) (st : St) : St :=
  let st := { st with ps :=
    { st.ps with iteration_count := st.ps.iteration_count + 1 } }
  let st := emitLog st (str "PATCHER")
    (str "🩹 Healing attempt " ++ strOfNat st.ps.iteration_count ++ str "/"
      ++ strOfNat st.ps.max_iterations ++ str "...") LogType.info
  executePatchingPhase cfg now st

/-- One full iteration of the self-healing `while` loop: patch,
re-validate, record the attempt, and either return successfully or check
for a persisting error against the stderr of the validation that preceded
the loop (`result` is never reassigned in the source).  The returned flag
is `true` when the loop is left by `return` or by a thrown error. -/
def healStep (cfg : Config) (now : Str) (result : CompilationResult) (st : St) : St × Bool :=
  let st := healPatched cfg now st
  if st.err.isSome then (st, true)
  else
    let newResult := validateCode st.ps.file_system
    let st := pushTermLog now newResult st
    if newResult.success then
      (emitLog st (str "PATCHER")
        (str "✅ Self-healing successful! Build passed.") LogType.success, true)
    else
      let st :=
        if newResult.stderr = result.stderr then
          emitLog st (str "PATCHER")
            (str "⚠️ Same error persists after attempt "
              ++ strOfNat st.ps.iteration_count) LogType.error
        else st
      (st, false)

/-- The self-healing `while` loop, with fuel.  The loop condition is
`iteration_count < max_iterations && !result.success` where `result` is
the validation that preceded the loop.  Each iteration raises
`iteration_count` by at least one, so fuel `max_iterations + 1` always
suffices. -/
def healLoop (cfg : Config) (now : Str) (result : CompilationResult) :
    Nat → St → St × Bool
  | 0, st => (st, false)
  | fuel + 1, st =>
    if st.ps.iteration_count < st.ps.max_iterations && !result.success then
      let r := healStep cfg now result st
      if r.2 then r else healLoop cfg now result fuel r.1
    else (st, false)

/-- `executeCompilationAndHealing`: validate; on success log and return; on
an unrecoverable failure throw a fatal build error; otherwise run the
bounded self-healing loop and, if the cap was reached, log the escalation
messages. -/
def executeCompilationAndHealing (cfg : Config) (now : Str) (st : St) : St :=
  if st.err.isSome then st
  else if !st.isRunning then st
  else
    let st := emitLog st (str "SYSTEM") (str "🔨 Starting compilation validation...")
      LogType.system
    let result := validateCode st.ps.file_system
    let st := pushTermLog now result st
    if result.success then
      let st := emitLog st (str "SYSTEM") (str "✅ Compilation successful!") LogType.success
      emitLog st (str "SYSTEM") result.stdout LogType.info
    else
      let st := emitLog st (str "SYSTEM")
        (str "⚠️ Build errors detected. Activating Patcher agent...") LogType.error
      let st := emitLog st (str "STDERR") result.stderr LogType.error
      if !isRecoverableError result then
        let st := emitLog st (str "PATCHER")
          (str "🛑 Fatal error detected. Human intervention required.") LogType.error
        { st with err := some (str "Fatal build error: " ++ result.stderr.take 200) }
      else
        let r := healLoop cfg now result (st.ps.max_iterations + 1) st
        if r.2 then r.1
        else
          let st := r.1
          if st.ps.iteration_count ≥ st.ps.max_iterations then
            let st := emitLog st (str "PATCHER")
              (str "🛑 Max healing iterations reached. Requesting human assistance.")
              LogType.error
            emitLog st (str "SYSTEM")
              (str "The system encountered persistent errors. Please review the logs.")
              LogType.error
          else st

/-! ## Workflows and `start` -/

/-- The opening logs and the four agent phases of `runAIWorkflow`
(everything before `executeCompilationAndHealing`). -/
def afterCoding (cfg : Config) (now userPrompt : Str) (st : St) : St :=
  let st := emitLog st (str "SYSTEM")
    (str "🚀 Initializing Agentic Studio Pro - Closed-Loop Architecture") LogType.system
  let st := emitLog st (str "SYSTEM")
    (str "User Intent: \"" ++ userPrompt ++ str "\"") LogType.info
  let st := executePlanningPhase cfg st
  let st := executeDesignPhase cfg st
  let st := executeArchitecturePhase cfg st
  executeCodingPhase cfg now st

/-- `runAIWorkflow`: the four agent phases, then compilation and healing,
then the Ready phase.  A thrown error anywhere skips the rest (each
function is a no-op on a pending error). -/
def runAIWorkflow (cfg : Config) (now userPrompt : Str) (st : St) : St :=
  if st.err.isSome then st
  else
    let st := afterCoding cfg now userPrompt st
    let st := executeCompilationAndHealing cfg now st
    if st.err.isSome then st
    else
      let st := setPhase st AgentPhase.READY
      emitLog st (str "SYSTEM")
        (str "✅ Application ready! All agents completed successfully.") LogType.success

/-- `runSimulation`: replay the scripted steps, emitting a phase change and
a log per step (the step delays are irrelevant here). -/
def runSimulation : List SimStep → St → St
  | [], st => st
  | step :: rest, st =>
    if !st.isRunning then st
    else
      let st := { st with currentPhase := step.phase }
      let st := emitEvent st (Event.phaseChange step.phase)
      let st := emitEvent st (Event.log step.log)
      runSimulation rest st

/-- `determineMode`: simulation stays simulation; AI mode requires an
available API key (else a thrown configuration error); hybrid picks AI
when available, else simulation. -/
def determineMode (mode : AgentMode) (apiAvailable : Bool) : Except Str AgentMode :=
  match mode with
  | .simulation => .ok .simulation
  | .ai =>
    if apiAvailable then .ok .ai
    else .error (str "AI mode requested but Gemini API key not configured")
  | .hybrid => .ok (if apiAvailable then .ai else .simulation)

/-- The initial orchestrator state of a run (`createInitialState`, then the
mutations at the top of `start`). -/
def mkStartState (id userPrompt : Str) (oracle : List (Except Str Parsed)) : St :=
  { ps := { createInitialState id with
      user_prompt := userPrompt, status := AgentPhase.PLANNING }
    currentPhase := AgentPhase.PLANNING
    oracle := oracle
    events := []
    err := none
    isRunning := true }

/-- `AgentOrchestrator.start` on a fresh orchestrator (the
`isRunning` re-entry guard throws to the caller before any callback and is
outside the scope of the modelled claims): run the selected workflow —
hybrid mode falls back to simulation when the AI workflow throws — then
fire exactly one of `onComplete`/`onError` and clear the running flag. -/
def start (cfg : Config) (simSteps : List SimStep) (apiAvailable : Bool)
    (id now userPrompt : Str) (oracle : List (Except Str Parsed)) : St :=
  let st0 := mkStartState id userPrompt oracle
  let st1 :=
    match determineMode cfg.mode apiAvailable with
    | .error e => { st0 with err := some e }
    | .ok .simulation => runSimulation simSteps st0
    | .ok .ai => runAIWorkflow cfg now userPrompt st0
    | .ok .hybrid =>
      let stA := runAIWorkflow cfg now userPrompt st0
      match stA.err with
      | none => stA
      | some _ =>
        let stB := emitLog { stA with err := none } (str "SYSTEM")
          (str "AI unavailable, running in demo mode...") LogType.info
        runSimulation simSteps stB
  let st2 :=
    match st1.err with
    | none => emitEvent st1 Event.complete
    | some e => { emitEvent st1 (Event.error e) with err := none }
  { st2 with isRunning := false }

/-! ## Predicates and concrete fixtures used by the theorems -/

/-- Terminal consumer events: `onComplete` and `onError`. -/
def isTerminalEvt : Event → Bool
  | Event.complete => true
  | Event.error _ => true
  | _ => false

/-- The stagnation signal of the healing loop. -/
def isStagnationLog : Event → Bool
  | Event.log l => (str "⚠️ Same error persists").isPrefixOf l.message
  | _ => false

/-- The per-attempt healing log of the healing loop. -/
def isHealAttemptLog : Event → Bool
  | Event.log l => (str "🩹 Healing attempt").isPrefixOf l.message
  | _ => false

/-- The escalation log emitted when the iteration cap is reached. -/
def isEscalationLog : Event → Bool
  | Event.log l =>
    decide (l.message = str "🛑 Max healing iterations reached. Requesting human assistance.")
  | _ => false

/-- An `onError` callback event. -/
def isErrorEvt : Event → Bool
  | Event.error _ => true
  | _ => false

/-- A `phaseChange` callback into the Patching phase. -/
def isPatchingChange (e : Event) : Bool :=
  decide (e = Event.phaseChange AgentPhase.PATCHING)

/-- The diagnostic message produced for the `"// TODO:"` forbidden
placeholder. -/
def markerMsg : Str := forbiddenMsg (str "// TODO:")

/-- A diagnostic reporting the `"// TODO:"` forbidden placeholder (of kind
`syntax`). -/
def isMarkerDiag (d : Diag) : Bool :=
  decide (d.message = markerMsg) && decide (d.type = DiagType.syntaxErr)

/-- Number of lines of a file content containing the `"// TODO:"` marker. -/
def markerLineCount (c : Str) : Nat :=
  (splitOnChar '\n' c).countP (fun ln => containsSub (str "// TODO:") ln)

/-- Total number of `"// TODO:"` marker lines over the analyzed files of a
file set. -/
def totalMarkerCount (fs : List FileEntry) : Nat :=
  (fs.map fun f =>
    if isAnalyzedFile f then markerLineCount (f.content.getD []) else 0).sum

/-- AI-mode configuration without `onStateUpdate`, used by the concrete
runs below. -/
def cfgAi : Config := ⟨AgentMode.ai, false⟩

/-- Coding payload producing one source file whose only line carries a
forbidden placeholder (a recoverable build error). -/
def codingPayload : Parsed :=
  { emptyParsed with files := some [⟨str "src/app/page.tsx", str "// TODO: x"⟩] }

/-- Patch payload requesting human help. -/
def helpPayload : Parsed := { emptyParsed with request_human_help := true }

/-- The fix list of `fixPayload`. -/
def fixPayloadFixes : List PatchFix :=
  [⟨str "src/app/page.tsx", 1, str "// TODO: x", str "Lorem ipsum"⟩]

/-- Patch payload replacing the placeholder by a different forbidden
placeholder (the build error changes but does not go away). -/
def fixPayload : Parsed := { emptyParsed with fixes := some fixPayloadFixes }

/-- Coding payload producing a file whose path contains the fatal pattern
`ENOSPC`, so the first validation failure is unrecoverable. -/
def enospcPayload : Parsed :=
  { emptyParsed with files := some [⟨str "src/enospc.ts", str "// TODO: x"⟩] }

/-- Oracle of a run whose build error never changes: four phase payloads,
then three ineffective patch payloads. -/
def oracleStuck : List (Except Str Parsed) :=
  [Except.ok emptyParsed, Except.ok emptyParsed, Except.ok emptyParsed,
   Except.ok codingPayload, Except.ok emptyParsed, Except.ok emptyParsed,
   Except.ok emptyParsed]

/-- The run on `oracleStuck`: every re-validation reproduces the first
validation error until the iteration cap. -/
def runStuck : St :=
  start cfgAi [] true (str "run-1") (str "t0") (str "demo app") oracleStuck

/-- Oracle of a run whose first patch attempt requests human help. -/
def oracleHelp : List (Except Str Parsed) :=
  [Except.ok emptyParsed, Except.ok emptyParsed, Except.ok emptyParsed,
   Except.ok codingPayload, Except.ok helpPayload]

/-- The run on `oracleHelp`. -/
def runHelp : St :=
  start cfgAi [] true (str "run-2") (str "t0") (str "demo app") oracleHelp

/-- Oracle of a run whose first patch attempt changes the error (stderr B
after initial stderr A) and whose later attempts change nothing, so
attempts 2 and 3 re-produce stderr B. -/
def oracleShift : List (Except Str Parsed) :=
  [Except.ok emptyParsed, Except.ok emptyParsed, Except.ok emptyParsed,
   Except.ok codingPayload, Except.ok fixPayload, Except.ok emptyParsed,
   Except.ok emptyParsed]

/-- The run on `oracleShift`. -/
def runShift : St :=
  start cfgAi [] true (str "run-3") (str "t0") (str "demo app") oracleShift

/-- Oracle of a run whose first validation failure is fatal. -/
def oracleFatal : List (Except Str Parsed) :=
  [Except.ok emptyParsed, Except.ok emptyParsed, Except.ok emptyParsed,
   Except.ok enospcPayload]

/-- The run on `oracleFatal`. -/
def runFatal : St :=
  start cfgAi [] true (str "run-4") (str "t0") (str "demo app") oracleFatal

/-- A file entry containing the bare `"TODO:"` marker (no `//`). -/
def todoStateFile : FileEntry :=
  ⟨str "src/app/page.tsx", some (str "TODO: implement the thing"), FType.file, none⟩

/-- A two-file set for the frame-effect theorems. -/
def c8Files : List FileEntry :=
  [⟨str "a.ts", some (str "hello"), FType.file, none⟩,
   ⟨str "b.ts", some (str "world"), FType.file, none⟩]

/-- A fix whose `before` string is absent from its target file. -/
def c8Fix : PatchFix := ⟨str "a.ts", 1, str "xyz", str "Q"⟩

/-- A one-file set whose content contains the `before` string twice. -/
def c10Files : List FileEntry :=
  [⟨str "a.ts", some (str "abcabc"), FType.file, none⟩]

/-- A fix whose `before` string occurs twice in its target file. -/
def c10Fix : PatchFix := ⟨str "a.ts", 1, str "abc", str "XY"⟩

/-- A fix whose `after` contains the dollar-ampersand substitution
sequence: JS `replace` expands it to the matched text. -/
def c10DollarFix : PatchFix := ⟨str "a.ts", 1, str "abc", str "$&$&"⟩

/-- A state inside the healing loop (failing file set, one payload left),
used to witness the loop-body lemmas. -/
def stHeal : St :=
  { ps := { createInitialState (str "run-5") with
      file_system := [⟨str "src/app/page.tsx", some (str "// TODO: x"), FType.file, none⟩] }
    currentPhase := AgentPhase.PATCHING
    oracle := [Except.ok emptyParsed]
    events := []
    err := none
    isRunning := true }

/-- A copy of `stHeal` whose payload requests human help. -/
def stHealHelp : St := { stHeal with oracle := [Except.ok helpPayload] }

/-- The failing validation result of `stHeal`. -/
def resHeal : CompilationResult := validateCode stHeal.ps.file_system

/-- The transient-failure script used to witness the retry theorem: two
rate-limit failures, then success. -/
def retryScript : Nat → Except Str Nat := fun k =>
  if k < 2 then Except.error (str "Rate limit exceeded. Please try again in a moment.")
  else Except.ok 42

/-! ## Projection lemmas for the orchestrator state helpers -/

@[simp] theorem emitEvent_ps (st : St) (e : Event) : (emitEvent st e).ps = st.ps := rfl

@[simp] theorem emitEvent_err (st : St) (e : Event) : (emitEvent st e).err = st.err := rfl

@[simp] theorem emitEvent_oracle (st : St) (e : Event) : (emitEvent st e).oracle = st.oracle := rfl

@[simp] theorem emitEvent_isRunning (st : St) (e : Event) :
    (emitEvent st e).isRunning = st.isRunning := rfl

@[simp] theorem emitEvent_events (st : St) (e : Event) :
    (emitEvent st e).events = st.events ++ [e] := rfl

@[simp] theorem emitLog_def (st : St) (a m : Str) (t : LogType) :
    emitLog st a m t = emitEvent st (Event.log ⟨a, m, t, none⟩) := rfl

@[simp] theorem emitLogCode_def (st : St) (a m : Str) (t : LogType) (c : Str) :
    emitLogCode st a m t c = emitEvent st (Event.log ⟨a, m, t, some c⟩) := rfl

@[simp] theorem setPhase_ps_iteration (st : St) (p : AgentPhase) :
    (setPhase st p).ps.iteration_count = st.ps.iteration_count := rfl

@[simp] theorem setPhase_ps_max (st : St) (p : AgentPhase) :
    (setPhase st p).ps.max_iterations = st.ps.max_iterations := rfl

@[simp] theorem setPhase_ps_file_system (st : St) (p : AgentPhase) :
    (setPhase st p).ps.file_system = st.ps.file_system := rfl

@[simp] theorem setPhase_err (st : St) (p : AgentPhase) : (setPhase st p).err = st.err := rfl

@[simp] theorem setPhase_oracle (st : St) (p : AgentPhase) :
    (setPhase st p).oracle = st.oracle := rfl

@[simp] theorem setPhase_isRunning (st : St) (p : AgentPhase) :
    (setPhase st p).isRunning = st.isRunning := rfl

@[simp] theorem setPhase_events (st : St) (p : AgentPhase) :
    (setPhase st p).events = st.events ++ [Event.phaseChange p] := rfl

@[simp] theorem pushTermLog_events (now : Str) (r : CompilationResult) (st : St) :
    (pushTermLog now r st).events = st.events := rfl

@[simp] theorem pushTermLog_err (now : Str) (r : CompilationResult) (st : St) :
    (pushTermLog now r st).err = st.err := rfl

@[simp] theorem pushTermLog_oracle (now : Str) (r : CompilationResult) (st : St) :
    (pushTermLog now r st).oracle = st.oracle := rfl

@[simp] theorem pushTermLog_isRunning (now : Str) (r : CompilationResult) (st : St) :
    (pushTermLog now r st).isRunning = st.isRunning := rfl

@[simp] theorem pushTermLog_ps_iteration (now : Str) (r : CompilationResult) (st : St) :
    (pushTermLog now r st).ps.iteration_count = st.ps.iteration_count := rfl

@[simp] theorem pushTermLog_ps_max (now : Str) (r : CompilationResult) (st : St) :
    (pushTermLog now r st).ps.max_iterations = st.ps.max_iterations := rfl

@[simp] theorem pushTermLog_ps_file_system (now : Str) (r : CompilationResult) (st : St) :
    (pushTermLog now r st).ps.file_system = st.ps.file_system := rfl

@[simp] theorem notifyStateUpdate_ps (cfg : Config) (st : St) :
    (notifyStateUpdate cfg st).ps = st.ps := by
  unfold notifyStateUpdate; split <;> rfl

@[simp] theorem notifyStateUpdate_err (cfg : Config) (st : St) :
    (notifyStateUpdate cfg st).err = st.err := by
  unfold notifyStateUpdate; split <;> rfl

@[simp] theorem notifyStateUpdate_oracle (cfg : Config) (st : St) :
    (notifyStateUpdate cfg st).oracle = st.oracle := by
  unfold notifyStateUpdate; split <;> rfl

@[simp] theorem notifyStateUpdate_isRunning (cfg : Config) (st : St) :
    (notifyStateUpdate cfg st).isRunning = st.isRunning := by
  unfold notifyStateUpdate; split <;> rfl

@[simp] theorem logThought_ps (st : St) (a : Str) (p : Parsed) :
    (logThought st a p).ps = st.ps := by
  unfold logThought; cases p.thought <;> rfl

@[simp] theorem logThought_err (st : St) (a : Str) (p : Parsed) :
    (logThought st a p).err = st.err := by
  unfold logThought; cases p.thought <;> rfl

@[simp] theorem logThought_oracle (st : St) (a : Str) (p : Parsed) :
    (logThought st a p).oracle = st.oracle := by
  unfold logThought; cases p.thought <;> rfl

@[simp] theorem logThought_isRunning (st : St) (a : Str) (p : Parsed) :
    (logThought st a p).isRunning = st.isRunning := by
  unfold logThought; cases p.thought <;> rfl

/-! ## C4: the response parser never throws -/

/-- C4: `parseAgentResponse(rawText, phase)` never throws for any input
string (the embedding is a total function): if the text contains a fenced
JSON block and that block parses, the parsed object is returned; otherwise,
if the entire text parses as JSON, that value is returned; otherwise a
fallback payload with `raw = true` carrying the unparsed text verbatim is
returned. -/
theorem c4_parse_never_throws {α : Type} (jsonParse : Str → Option α)
    (phase : AgentPhase) (rawText : Str) :
    (∀ b v, extractFenced rawText = some b → jsonParse b = some v →
      parseAgentResponse jsonParse phase rawText = ParseResult.parsed v) ∧
    ((∀ b, extractFenced rawText = some b → jsonParse b = none) →
      ∀ v, jsonParse rawText = some v →
        parseAgentResponse jsonParse phase rawText = ParseResult.parsed v) ∧
    ((∀ b, extractFenced rawText = some b → jsonParse b = none) →
      jsonParse rawText = none →
        parseAgentResponse jsonParse phase rawText =
          ParseResult.fallback (str "Extracted from unstructured response") rawText true) := by
  unfold parseAgentResponse
  refine ⟨?_, ?_, ?_⟩
  · intro b v hb hv
    simp [hb, hv]
  · intro hfail v hv
    cases hb : extractFenced rawText with
    | none => simp [hb, hv]
    | some b => simp [hb, hfail b hb, hv]
  · intro hfail hv
    cases hb : extractFenced rawText with
    | none => simp [hb, hv]
    | some b => simp [hb, hfail b hb, hv]

/-- Witness for C4 at a concrete unstructured input. -/
theorem c4_parse_never_throws_witness :
    parseAgentResponse (fun _ => (none : Option Nat)) AgentPhase.CODING (str "hello") =
      ParseResult.fallback (str "Extracted from unstructured response") (str "hello") true := by
  have h := (c4_parse_never_throws (fun _ => (none : Option Nat)) AgentPhase.CODING
    (str "hello")).2.2
  exact h (fun b _ => rfl) rfl

/-! ## C3: retry with exponential backoff -/

theorem backoffSeq_capped_pow (n : Nat) : ∀ j : Nat,
    backoffSeq n (min (1000 * 2 ^ j) 10000) =
      (List.range n).map (fun k => min (1000 * 2 ^ (j + k)) 10000) := by
  induction n with
  | zero => intro j; simp [backoffSeq]
  | succ n ih =>
    intro j
    have hdouble : min (min (1000 * 2 ^ j) 10000 * 2) 10000 =
        min (1000 * 2 ^ (j + 1)) 10000 := by
      rw [pow_succ]
      omega
    rw [backoffSeq, hdouble, ih (j + 1), List.range_succ_eq_map, List.map_cons,
      List.map_map]
    refine congrArg₂ _ (by simp) ?_
    apply List.map_congr_left
    intro k _
    simp only [Function.comp]
    rw [show j + 1 + k = j + (k + 1) by omega]

theorem retryAux_ok {α : Type} (f : Nat → Except Str α) (v : α) :
    ∀ (n attempt remaining delay : Nat), n ≤ remaining →
    (∀ k, k < n → ∃ e, f (attempt + k) = .error e ∧ isAuthError e = false) →
    f (attempt + n) = .ok v →
    retryAux f 10000 attempt remaining delay = (.ok v, backoffSeq n delay) := by
  intro n
  induction n with
  | zero =>
    intro attempt remaining delay _ _ hok
    rw [Nat.add_zero] at hok
    rw [retryAux, hok]
    simp [backoffSeq]
  | succ n ih =>
    intro attempt remaining delay hle herr hok
    obtain ⟨e, he, hna⟩ := herr 0 (Nat.succ_pos n)
    rw [Nat.add_zero] at he
    rw [retryAux, he]
    cases remaining with
    | zero => omega
    | succ r =>
      have herr2 : ∀ k, k < n → ∃ e, f (attempt + 1 + k) = .error e ∧ isAuthError e = false := by
        intro k hk
        have h := herr (k + 1) (by omega)
        rwa [show attempt + (k + 1) = attempt + 1 + k by omega] at h
      have hok2 : f (attempt + 1 + n) = .ok v := by
        rwa [show attempt + 1 + n = attempt + (n + 1) by omega]
      simp only [hna, Bool.false_eq_true, if_false]
      rw [ih (attempt + 1) r (min (delay * 2) 10000) (by omega) herr2 hok2]
      rfl

theorem retryAux_exhaust {α : Type} (f : Nat → Except Str α) :
    ∀ (remaining attempt delay : Nat),
    (∀ k, k ≤ remaining → ∃ e, f (attempt + k) = .error e ∧ isAuthError e = false) →
    ∃ e, f (attempt + remaining) = .error e ∧
      retryAux f 10000 attempt remaining delay = (.error e, backoffSeq remaining delay) := by
  intro remaining
  induction remaining with
  | zero =>
    intro attempt delay herr
    obtain ⟨e, he, hna⟩ := herr 0 (Nat.le_refl 0)
    refine ⟨e, he, ?_⟩
    rw [Nat.add_zero] at he
    rw [retryAux, he]
    simp [hna, backoffSeq]
  | succ r ih =>
    intro attempt delay herr
    obtain ⟨e0, he0, hna0⟩ := herr 0 (Nat.zero_le _)
    have herr2 : ∀ k, k ≤ r → ∃ e, f (attempt + 1 + k) = .error e ∧ isAuthError e = false := by
      intro k hk
      have h := herr (k + 1) (by omega)
      rwa [show attempt + (k + 1) = attempt + 1 + k by omega] at h
    obtain ⟨e, he, heq⟩ := ih (attempt + 1) (min (delay * 2) 10000) herr2
    refine ⟨e, ?_, ?_⟩
    · rwa [show attempt + (r + 1) = attempt + 1 + r by omega]
    · rw [Nat.add_zero] at he0
      rw [retryAux, he0]
      simp only [hna0, Bool.false_eq_true, if_false]
      rw [heq]
      rfl

/-- C3: for every `sendPrompt` call, transient failures are retried up to
the fixed retry count of 3, waiting `min(1000 * 2^k, 10000)` ms before the
`(k+1)`-th retry, while an authentication failure (message naming the API
key or a 401) is rethrown immediately, producing no second attempt and no
delay. -/
theorem c3_retry_backoff {α : Type} (f : Nat → Except Str α) :
    (∀ (n : Nat) (v : α), n ≤ 3 →
      (∀ k, k < n → ∃ e, f k = .error e ∧ isAuthError e = false) →
      f n = .ok v →
      retryWithBackoff geminiRetryConfig f =
        (.ok v, (List.range n).map fun k => min (1000 * 2 ^ k) 10000)) ∧
    ((∀ k, k ≤ 3 → ∃ e, f k = .error e ∧ isAuthError e = false) →
      ∃ e, f 3 = .error e ∧
        retryWithBackoff geminiRetryConfig f = (.error e, [1000, 2000, 4000])) ∧
    (∀ e, f 0 = .error e → isAuthError e = true →
      retryWithBackoff geminiRetryConfig f = (.error e, [])) := by
  refine ⟨?_, ?_, ?_⟩
  · intro n v hn herr hok
    have h := retryAux_ok f v n 0 3 1000 hn
      (by intro k hk; simpa using herr k hk) (by simpa using hok)
    have hseq : backoffSeq n 1000 = (List.range n).map fun k => min (1000 * 2 ^ k) 10000 := by
      have h0 := backoffSeq_capped_pow n 0
      simpa using h0
    rw [retryWithBackoff]
    rw [show geminiRetryConfig.maxDelay = 10000 from rfl,
      show geminiRetryConfig.maxRetries = 3 from rfl,
      show geminiRetryConfig.initialDelay = 1000 from rfl, h, hseq]
  · intro herr
    obtain ⟨e, he, heq⟩ := retryAux_exhaust f 3 0 1000
      (by intro k hk; simpa using herr k hk)
    refine ⟨e, by simpa using he, ?_⟩
    rw [retryWithBackoff]
    rw [show geminiRetryConfig.maxDelay = 10000 from rfl,
      show geminiRetryConfig.maxRetries = 3 from rfl,
      show geminiRetryConfig.initialDelay = 1000 from rfl, heq]
    rfl
  · intro e h0 hauth
    rw [retryWithBackoff, retryAux, h0]
    simp [hauth]

/-- Witness for C3: two rate-limit failures then success yields the value
after delays 1000 and 2000 ms; the rate-limit message is not an
authentication error. -/
theorem c3_retry_backoff_witness :
    retryWithBackoff geminiRetryConfig retryScript = (.ok 42, [1000, 2000]) ∧
    isAuthError (str "Rate limit exceeded. Please try again in a moment.") = false := by
  have h := (c3_retry_backoff retryScript).1 2 42 (by omega)
    (by
      intro k hk
      refine ⟨str "Rate limit exceeded. Please try again in a moment.", ?_, by decide⟩
      simp [retryScript, hk])
    (by decide)
  refine ⟨?_, by decide⟩
  rw [h]
  decide

/-! ## C8 and C10: applying a Patch fix -/

theorem findSub_spec (p : Str) : ∀ (l : Str) (i : Nat), findSub p l = some i →
    p.isPrefixOf (l.drop i) = true ∧ i + p.length ≤ l.length := by
  intro l
  induction l with
  | nil =>
    intro i h
    rw [findSub] at h
    split at h
    case isTrue hp =>
      cases p with
      | nil =>
        cases h
        exact ⟨rfl, by simp⟩
      | cons a q => simp [List.isPrefixOf] at hp
    case isFalse => cases h
  | cons c rest ih =>
    intro i h
    rw [findSub] at h
    split at h
    case isTrue hp =>
      cases h
      refine ⟨hp, ?_⟩
      rw [List.isPrefixOf_iff_prefix] at hp
      have := hp.length_le
      simpa using this
    case isFalse hp =>
      cases hf : findSub p rest with
      | none => rw [hf] at h; cases h
      | some i0 =>
        rw [hf] at h
        cases h
        obtain ⟨h1, h2⟩ := ih i0 hf
        exact ⟨h1, by simp only [List.length_cons]; omega⟩

theorem drop_append_len {α : Type} (l₁ l₂ : List α) (k : Nat) :
    (l₁ ++ l₂).drop (l₁.length + k) = l₂.drop k := by
  induction l₁ with
  | nil => simp
  | cons a t ih =>
    rw [List.cons_append, List.length_cons,
      show t.length + 1 + k = (t.length + k) + 1 by omega, List.drop_succ_cons, ih]

theorem occursAt_shift (c p mid : Str) (i : Nat) (hi : i ≤ c.length) :
    ∀ j, i + p.length ≤ j → occursAt p c j = true →
      occursAt p (c.take i ++ mid ++ c.drop (i + p.length))
        (i + mid.length + (j - (i + p.length))) = true := by
  intro j hj hocc
  unfold occursAt at hocc ⊢
  rw [Bool.and_eq_true] at hocc
  obtain ⟨hjl, hjp⟩ := hocc
  have hjl2 : j + p.length ≤ c.length := of_decide_eq_true hjl
  have hlfront : (c.take i ++ mid).length = i + mid.length := by
    simp [List.length_take, Nat.min_eq_left hi]
  have hdrop : (c.take i ++ mid ++ c.drop (i + p.length)).drop
      (i + mid.length + (j - (i + p.length))) = c.drop j := by
    rw [show c.take i ++ mid ++ c.drop (i + p.length) =
      (c.take i ++ mid) ++ c.drop (i + p.length) from rfl]
    rw [show i + mid.length + (j - (i + p.length)) =
      (c.take i ++ mid).length + (j - (i + p.length)) by rw [hlfront]]
    rw [drop_append_len, List.drop_drop]
    rw [show i + p.length + (j - (i + p.length)) = j by omega]
  rw [Bool.and_eq_true]
  constructor
  · apply decide_eq_true
    have hres : (c.take i ++ mid ++ c.drop (i + p.length)).length =
        i + mid.length + (c.length - (i + p.length)) := by
      simp [List.length_append, List.length_take, Nat.min_eq_left hi]
      omega
    omega
  · rw [hdrop]
    exact hjp

theorem replaceFirst_occurrence (c p r : Str) (i : Nat) (h : findSub p c = some i) :
    replaceFirst c p r = c.take i ++
      getSubstitution p (c.take i) (c.drop (i + p.length)) r ++
      c.drop (i + p.length) ∧
    ∀ j, i + p.length ≤ j → occursAt p c j = true →
      occursAt p (c.take i ++
          getSubstitution p (c.take i) (c.drop (i + p.length)) r ++
          c.drop (i + p.length))
        (i + (getSubstitution p (c.take i) (c.drop (i + p.length)) r).length +
          (j - (i + p.length))) = true := by
  obtain ⟨hpre, hlen⟩ := findSub_spec p c i h
  exact ⟨by rw [replaceFirst, h], occursAt_shift c p _ i (by omega)⟩

/-- C8: applying a Patch fix whose `before` substring does not occur in the
target file's content leaves every file's content unchanged, and leaves
every file whose path differs from the fix's target entirely unchanged at
its position.  (Paths are unique by the data-model invariant; the
hypothesis covers every entry carrying the target path.) -/
theorem c8_absent_before_is_noop (now : Str) :
    ∀ (fs : List FileEntry) (fix : PatchFix),
    (∀ f ∈ fs, f.path = fix.file →
      f.content.all (fun c => !containsSub fix.before c) = true) →
    ((applyFix now fs fix).1.map (fun f => f.content) = fs.map (fun f => f.content)) ∧
    ((applyFix now fs fix).1.map (fun f => f.path) = fs.map (fun f => f.path)) ∧
    (∀ (k : Nat) (f : FileEntry), fs[k]? = some f → f.path ≠ fix.file →
      (applyFix now fs fix).1[k]? = some f) := by
  intro fs
  induction fs with
  | nil =>
    intro fix _
    refine ⟨rfl, rfl, ?_⟩
    intro k f hk
    simp at hk
  | cons f0 rest ih =>
    intro fix hyp
    by_cases hpath : f0.path = fix.file
    · have hall := hyp f0 (List.mem_cons_self f0 rest) hpath
      cases hcont : f0.content with
      | none =>
        simp only [applyFix, if_pos hpath, hcont]
        refine ⟨by trivial, by trivial, ?_⟩
        intro k f hk _
        exact hk
      | some c =>
        rw [hcont] at hall
        simp only [Option.all_some, Bool.not_eq_true'] at hall
        by_cases hcne : c = []
        · subst hcne
          simp only [applyFix, if_pos hpath, hcont]
          refine ⟨by simp, by simp, ?_⟩
          intro k f hk _
          simpa using hk
        · have hnone : findSub fix.before c = none := by
            cases hf : findSub fix.before c with
            | none => rfl
            | some v =>
              exfalso
              have hc : containsSub fix.before c = true := by
                rw [containsSub, hf]; rfl
              rw [hc] at hall
              cases hall
          have hrep : replaceFirst c fix.before fix.after = c := by
            rw [replaceFirst, hnone]
          simp only [applyFix, if_pos hpath, hcont, if_pos hcne, hrep]
          refine ⟨by simp [hcont], by simp, ?_⟩
          intro k f hk hne
          cases k with
          | zero =>
            simp only [List.getElem?_cons_zero, Option.some_inj] at hk
            rw [← hk] at hne
            exact absurd hpath hne
          | succ k =>
            simpa using hk
    · have hyp2 : ∀ f ∈ rest, f.path = fix.file →
          f.content.all (fun c => !containsSub fix.before c) = true :=
        fun f hf => hyp f (List.mem_cons_of_mem f0 hf)
      obtain ⟨h1, h2, h3⟩ := ih fix hyp2
      simp only [applyFix, if_neg hpath]
      refine ⟨by simpa using h1, by simpa using h2, ?_⟩
      intro k f hk hne
      cases k with
      | zero => simpa using hk
      | succ k =>
        have hk2 : rest[k]? = some f := by simpa using hk
        simpa using h3 k f hk2 hne

/-- Witness for C8: a fix with an absent `before` leaves both files'
contents unchanged and the non-target file entirely unchanged. -/
theorem c8_absent_before_is_noop_witness :
    ((applyFix (str "t1") c8Files c8Fix).1.map (fun f => f.content) =
      c8Files.map (fun f => f.content)) ∧
    (applyFix (str "t1") c8Files c8Fix).1[1]? =
      some ⟨str "b.ts", some (str "world"), FType.file, none⟩ := by
  have h := c8_absent_before_is_noop (str "t1") c8Files c8Fix (by decide)
  exact ⟨h.1, h.2.2 1 ⟨str "b.ts", some (str "world"), FType.file, none⟩
    (by decide) (by decide)⟩

/-- C10 (amended): a Patch fix whose `before` occurs in the target file's
content is applied by replacing only the first (leftmost) occurrence; the
inserted text is `after` expanded by GetSubstitution (dollar sequences for
the matched text and the surrounding context are interpreted, everything
else — `after` itself when it holds no dollar sequence — is inserted
verbatim); the suffix following the replaced occurrence — and with it
every later occurrence of `before` — is preserved verbatim at its shifted
position. -/
theorem c10_first_occurrence_only (now : Str) :
    ∀ (fs : List FileEntry) (fix : PatchFix) (f : FileEntry) (c : Str) (i : Nat),
    fs.find? (fun g => decide (g.path = fix.file)) = some f →
    f.content = some c → c ≠ [] →
    findSub fix.before c = some i →
    ((applyFix now fs fix).1.find? (fun g => decide (g.path = fix.file)) =
      some ⟨f.path, some (c.take i ++
          getSubstitution fix.before (c.take i) (c.drop (i + fix.before.length))
            fix.after ++ c.drop (i + fix.before.length)),
        f.type, some now⟩) ∧
    (∀ j, i + fix.before.length ≤ j → occursAt fix.before c j = true →
      occursAt fix.before (c.take i ++
          getSubstitution fix.before (c.take i) (c.drop (i + fix.before.length))
            fix.after ++ c.drop (i + fix.before.length))
        (i + (getSubstitution fix.before (c.take i)
            (c.drop (i + fix.before.length)) fix.after).length +
          (j - (i + fix.before.length))) = true) := by
  intro fs
  induction fs with
  | nil =>
    intro fix f c i hfind
    simp [List.find?] at hfind
  | cons f0 rest ih =>
    intro fix f c i hfind hc hcne hsub
    rw [List.find?_cons_eq_some] at hfind
    by_cases hpath : f0.path = fix.file
    · have hf0 : f0 = f := by
        rcases hfind with ⟨_, hf0⟩ | ⟨hneg, _⟩
        · exact hf0
        · simp [hpath] at hneg
      subst hf0
      obtain ⟨hrep, hocc⟩ := replaceFirst_occurrence c fix.before fix.after i hsub
      refine ⟨?_, hocc⟩
      simp only [applyFix, if_pos hpath, hc, if_pos hcne, hrep]
      rw [List.find?_cons_eq_some]
      left
      exact ⟨by simp [hpath], rfl⟩
    · have hrest : rest.find? (fun g => decide (g.path = fix.file)) = some f := by
        rcases hfind with ⟨hpos, _⟩ | ⟨_, hrest⟩
        · simp [hpath] at hpos
        · exact hrest
      obtain ⟨h1, h2⟩ := ih fix f c i hrest hc hcne hsub
      refine ⟨?_, h2⟩
      simp only [applyFix, if_neg hpath]
      rw [List.find?_cons_eq_some]
      right
      exact ⟨by simp [hpath], h1⟩

/-- Counterexample to C10 as stated ("replaced with the after string"): a
fix on content `"abcabc"` with before `"abc"` and after the
dollar-ampersand sequence doubled rewrites the file to
`"abcabcabc"` (GetSubstitution expands each dollar-ampersand to the matched
text), not to the literal insertion of the after string, which would give a
content starting with the two dollar signs. -/
theorem c10_first_occurrence_only_counterexample :
    ((applyFix (str "t1") c10Files c10DollarFix).1.find?
      (fun g => decide (g.path = c10DollarFix.file)) =
      some ⟨str "a.ts", some (str "abcabcabc"), FType.file, some (str "t1")⟩) ∧
    str "abcabcabc" ≠
      (str "abcabc").take 0 ++ c10DollarFix.after ++ (str "abcabc").drop 3 := by
  decide

/-- Witness for C10 (amended): replacing `"abc"` by `"XY"` (dollar-free, so
GetSubstitution inserts it verbatim) in `"abcabc"` rewrites the file to
`"XYabc"`; the second occurrence survives at the shifted index. -/
theorem c10_first_occurrence_only_witness :
    ((applyFix (str "t1") c10Files c10Fix).1.find?
      (fun g => decide (g.path = c10Fix.file)) =
      some ⟨str "a.ts", some (str "XYabc"), FType.file, some (str "t1")⟩) ∧
    occursAt (str "abc") (str "XYabc") 2 = true := by
  have h := c10_first_occurrence_only (str "t1") c10Files c10Fix
    ⟨str "a.ts", some (str "abcabc"), FType.file, none⟩ (str "abcabc") 0
    (by decide) (by decide) (by decide) (by decide)
  constructor
  · rw [h.1]
    decide
  · have h2 := h.2 3 (by decide) (by decide)
    simpa using h2

/-! ## C6: the forbidden-placeholder marker -/

theorem countP_marker_singleton (path : Str) (n c : Nat) (m : Str) (t : DiagType) :
    List.countP isMarkerDiag [⟨path, n, c, m, t⟩] =
      if m = markerMsg ∧ t = DiagType.syntaxErr then 1 else 0 := by
  by_cases h1 : m = markerMsg <;> by_cases h2 : t = DiagType.syntaxErr <;>
    simp [isMarkerDiag, List.countP_cons, h1, h2]

theorem countP_marker_importErrors (path ln : Str) (n : Nat) :
    (importErrors path ln n).countP isMarkerDiag = 0 := by
  rw [importErrors]
  split
  · rw [List.countP_append]
    have h1 : (if containsSub (str "recharts") ln && containsSub (str "LineChart") ln then
        [(⟨path, n, (findSub (str "LineChart") ln).getD 0,
          str "Module \"recharts\" has no exported member \x27LineChart\x27. Did you mean \x27Line\x27?",
          DiagType.importErr⟩ : Diag)] else []).countP isMarkerDiag = 0 := by
      split
      · rw [countP_marker_singleton, if_neg]
        intro h
        exact absurd h.1 (by decide)
      · rfl
    have h2 : (if containsSub (str "// Import") ln || containsSub (str "TODO") ln then
        [(⟨path, n, 0, str "Placeholder import detected. Code must be complete.",
          DiagType.syntaxErr⟩ : Diag)] else []).countP isMarkerDiag = 0 := by
      split
      · rw [countP_marker_singleton, if_neg]
        intro h
        exact absurd h.1 (by decide)
      · rfl
    rw [h1, h2]
  · rfl

theorem countP_marker_braceErrors (path ln : Str) (n : Nat) :
    (braceErrors path ln n).countP isMarkerDiag = 0 := by
  rw [braceErrors]
  split
  · rw [countP_marker_singleton, if_neg]
    intro h
    exact absurd h.1 (by decide)
  · rfl

theorem countP_marker_semicolonErrors (path ln : Str) (n : Nat) :
    (semicolonErrors path ln n).countP isMarkerDiag = 0 := by
  rw [semicolonErrors]
  split
  · rw [countP_marker_singleton, if_neg]
    intro h
    exact absurd h.1 (by decide)
  · rfl

theorem countP_marker_lazyErrors (path ln : Str) (n : Nat) :
    (lazyErrors path ln n).countP isMarkerDiag =
      if containsSub (str "// TODO:") ln then 1 else 0 := by
  rw [lazyErrors, List.countP_map, List.countP_filter, lazyPatterns]
  have e1 : (decide (forbiddenMsg (str "// ... rest of code") = markerMsg)) = false := by decide
  have e2 : (decide (forbiddenMsg (str "// TODO:") = markerMsg)) = true := by decide
  have e3 : (decide (forbiddenMsg (str "// Implement later") = markerMsg)) = false := by decide
  have e4 : (decide (forbiddenMsg (str "// Add more") = markerMsg)) = false := by decide
  have e5 : (decide (forbiddenMsg (str "Lorem ipsum") = markerMsg)) = false := by decide
  have e6 : (decide (forbiddenMsg (str "Sample Product 1") = markerMsg)) = false := by decide
  simp only [List.countP_cons, List.countP_nil, Function.comp, isMarkerDiag,
    e1, e2, e3, e4, e5, e6, Bool.false_and, Bool.true_and, Bool.and_false, Bool.and_true]
  cases hc : containsSub (str "// TODO:") ln <;> simp [hc]

theorem countP_marker_analyzeLine (path ln : Str) (n : Nat) :
    (analyzeLine path ln n).countP isMarkerDiag =
      if containsSub (str "// TODO:") ln then 1 else 0 := by
  rw [analyzeLine, List.countP_append, List.countP_append, List.countP_append,
    countP_marker_importErrors, countP_marker_braceErrors, countP_marker_semicolonErrors,
    countP_marker_lazyErrors]
  omega

theorem sum_enumFrom_indicator (q : Str → Bool) :
    ∀ (lines : List Str) (k : Nat),
    ((lines.enumFrom k).map (fun p => if q p.2 then 1 else 0)).sum = lines.countP q := by
  intro lines
  induction lines with
  | nil => intro k; rfl
  | cons ln rest ih =>
    intro k
    rw [List.enumFrom_cons, List.map_cons, List.sum_cons, ih (k + 1), List.countP_cons]
    cases hq : q ln <;> simp [hq] <;> omega

theorem countP_marker_analyzeFile (path c : Str) :
    (analyzeFile path c).countP isMarkerDiag = markerLineCount c := by
  rw [analyzeFile, List.countP_flatten, List.map_map, markerLineCount]
  have hcong : ((splitOnChar '\n' c).enum.map
      (List.countP isMarkerDiag ∘ fun p => analyzeLine path p.2 (p.1 + 1))) =
      ((splitOnChar '\n' c).enum.map
        (fun p => if containsSub (str "// TODO:") p.2 then 1 else 0)) := by
    apply List.map_congr_left
    intro p _
    exact countP_marker_analyzeLine path p.2 (p.1 + 1)
  rw [hcong, List.enum_eq_enumFrom, sum_enumFrom_indicator]

theorem countP_marker_staticAnalysis (fs : List FileEntry) :
    (staticAnalysis fs).countP isMarkerDiag = totalMarkerCount fs := by
  rw [staticAnalysis, List.countP_flatten, List.map_map, totalMarkerCount]
  apply congrArg List.sum
  apply List.map_congr_left
  intro f _
  simp only [Function.comp]
  split
  · exact countP_marker_analyzeFile f.path (f.content.getD [])
  · rfl

theorem splitOnChar_ne_nil (sep : Char) : ∀ (s : Str), splitOnChar sep s ≠ [] := by
  intro s
  induction s with
  | nil => simp [splitOnChar]
  | cons c rest ih =>
    rw [splitOnChar]
    split
    · simp
    · cases h : splitOnChar sep rest with
      | nil => exact absurd h ih
      | cons l ls => simp [h]

theorem isPrefixOf_head_split :
    ∀ (p s : Str), p.isPrefixOf s = true → (∀ ch ∈ p, ch ≠ '\n') →
    p.isPrefixOf ((splitOnChar '\n' s).headI) = true := by
  intro p
  induction p with
  | nil => intro s _ _; simp [List.isPrefixOf]
  | cons a q ih =>
    intro s hpre hn
    cases s with
    | nil => simp at hpre
    | cons b s2 =>
      rw [List.isPrefixOf_cons₂, Bool.and_eq_true, beq_iff_eq] at hpre
      obtain ⟨hab, hq⟩ := hpre
      subst hab
      have hanl : a ≠ '\n' := hn a (List.mem_cons_self a q)
      rw [splitOnChar]
      rw [if_neg hanl]
      cases hsplit : splitOnChar '\n' s2 with
      | nil => exact absurd hsplit (splitOnChar_ne_nil '\n' s2)
      | cons l ls =>
        have hih := ih s2 hq (fun ch hch => hn ch (List.mem_cons_of_mem a hch))
        rw [hsplit] at hih
        simp only [List.headI]
        rw [List.isPrefixOf_cons₂, Bool.and_eq_true, beq_iff_eq]
        exact ⟨rfl, by simpa [List.headI] using hih⟩

theorem containsSub_of_isPrefixOf (p l : Str) (h : p.isPrefixOf l = true) :
    containsSub p l = true := by
  cases l with
  | nil =>
    rw [containsSub, findSub]
    simp [h]
  | cons c rest =>
    rw [containsSub, findSub]
    simp [h]

theorem containsSub_cons (p l : Str) (b : Char) (h : containsSub p l = true) :
    containsSub p (b :: l) = true := by
  rw [containsSub, findSub]
  split
  · rfl
  · rw [containsSub] at h
    simpa using h

theorem contains_line_of_contains (p : Str) (hn : ∀ ch ∈ p, ch ≠ '\n') :
    ∀ (c : Str), containsSub p c = true →
    ∃ ln ∈ splitOnChar '\n' c, containsSub p ln = true := by
  intro c
  induction c with
  | nil =>
    intro h
    exact ⟨[], by simp [splitOnChar], h⟩
  | cons b rest ih =>
    intro h
    rw [containsSub, findSub] at h
    by_cases hp : p.isPrefixOf (b :: rest) = true
    · have hhead := isPrefixOf_head_split p (b :: rest) hp hn
      cases hsplit : splitOnChar '\n' (b :: rest) with
      | nil => exact absurd hsplit (splitOnChar_ne_nil '\n' (b :: rest))
      | cons l ls =>
        rw [hsplit] at hhead
        simp only [List.headI] at hhead
        exact ⟨l, List.mem_cons_self l ls, containsSub_of_isPrefixOf p l hhead⟩
    · rw [if_neg hp] at h
      have hrest : containsSub p rest = true := by
        rw [containsSub]
        simpa using h
      obtain ⟨ln, hmem, hc⟩ := ih hrest
      by_cases hb : b = '\n'
      · subst hb
        refine ⟨ln, ?_, hc⟩
        rw [splitOnChar, if_pos rfl]
        exact List.mem_cons_of_mem [] hmem
      · cases hsplit : splitOnChar '\n' rest with
        | nil => exact absurd hsplit (splitOnChar_ne_nil '\n' rest)
        | cons l ls =>
          rw [hsplit] at hmem
          rcases List.mem_cons.mp hmem with hl | hls
          · refine ⟨b :: ln, ?_, containsSub_cons p ln b hc⟩
            rw [splitOnChar, if_neg hb, hsplit]
            subst hl
            exact List.mem_cons_self (b :: ln) ls
          · refine ⟨ln, ?_, hc⟩
            rw [splitOnChar, if_neg hb, hsplit]
            exact List.mem_cons_of_mem (b :: l) (by simpa using hls)

theorem validateCode_failure (fs : List FileEntry) (h : staticAnalysis fs ≠ []) :
    (validateCode fs).success = false ∧ (validateCode fs).exit_code = 1 ∧
    (validateCode fs).errors = staticAnalysis fs := by
  rw [validateCode]
  simp [h]

/-- C6 (amended): for every file set containing an analyzed source file
(path matching the source pattern, truthy content) whose content includes
the line-comment marker `"// TODO:"`, `validateCode` returns
`success = false` and `exit_code = 1`, and its diagnostics contain exactly
one `"// TODO:"` forbidden-placeholder diagnostic per marker line, each of
kind `syntax`. -/
theorem c6_todo_marker (fs : List FileEntry)
    (hex : ∃ f ∈ fs, isAnalyzedFile f = true ∧
      containsSub (str "// TODO:") (f.content.getD []) = true) :
    (validateCode fs).success = false ∧
    (validateCode fs).exit_code = 1 ∧
    (validateCode fs).errors.countP isMarkerDiag = totalMarkerCount fs ∧
    1 ≤ totalMarkerCount fs ∧
    (∀ d ∈ (validateCode fs).errors, isMarkerDiag d = true →
      d.type = DiagType.syntaxErr) := by
  obtain ⟨f, hmem, hana, hcont⟩ := hex
  have hone : 1 ≤ markerLineCount (f.content.getD []) := by
    obtain ⟨ln, hlnmem, hlnc⟩ := contains_line_of_contains (str "// TODO:")
      (by decide) (f.content.getD []) hcont
    rw [markerLineCount]
    exact List.countP_pos_iff.mpr ⟨ln, hlnmem, hlnc⟩
  have htot : 1 ≤ totalMarkerCount fs := by
    rw [totalMarkerCount]
    have hmm : markerLineCount (f.content.getD []) ∈
        fs.map (fun f => if isAnalyzedFile f then markerLineCount (f.content.getD []) else 0) := by
      have : (if isAnalyzedFile f then markerLineCount (f.content.getD []) else 0) =
          markerLineCount (f.content.getD []) := by rw [if_pos hana]
      rw [← this]
      exact List.mem_map_of_mem _ hmem
    have := List.single_le_sum (l := fs.map (fun f =>
      if isAnalyzedFile f then markerLineCount (f.content.getD []) else 0))
      (by intro x _; omega) _ hmm
    omega
  have hne : staticAnalysis fs ≠ [] := by
    intro hempty
    have := countP_marker_staticAnalysis fs
    rw [hempty] at this
    simp at this
    omega
  obtain ⟨h1, h2, h3⟩ := validateCode_failure fs hne
  refine ⟨h1, h2, ?_, htot, ?_⟩
  · rw [h3, countP_marker_staticAnalysis]
  · intro d _ hd
    rw [isMarkerDiag, Bool.and_eq_true, decide_eq_true_eq, decide_eq_true_eq] at hd
    exact hd.2

/-- Witness for C6 (amended) at a file set containing a `"// TODO:"` line. -/
theorem c6_todo_marker_witness :
    (validateCode [⟨str "src/app/page.tsx", some (str "// TODO: x"), FType.file, none⟩]).success
      = false ∧
    (validateCode [⟨str "src/app/page.tsx", some (str "// TODO: x"), FType.file, none⟩]).exit_code
      = 1 ∧
    (validateCode [⟨str "src/app/page.tsx", some (str "// TODO: x"), FType.file,
      none⟩]).errors.countP isMarkerDiag = 1 := by
  have h := c6_todo_marker
    [⟨str "src/app/page.tsx", some (str "// TODO: x"), FType.file, none⟩]
    ⟨⟨str "src/app/page.tsx", some (str "// TODO: x"), FType.file, none⟩,
      by simp, by decide, by decide⟩
  refine ⟨h.1, h.2.1, ?_⟩
  rw [h.2.2.1]
  decide

/-- Counterexample to C6 as stated: a source file whose content includes
the literal `"TODO:"` (without the `//` line-comment prefix) passes
validation — `validateCode` returns `success = true`, no diagnostics and
`exit_code = 0`, not the claimed failure. -/
theorem c6_todo_marker_counterexample :
    isAnalyzedFile todoStateFile = true ∧
    containsSub (str "TODO:") (todoStateFile.content.getD []) = true ∧
    (validateCode [todoStateFile]).success = true ∧
    (validateCode [todoStateFile]).exit_code = 0 ∧
    (validateCode [todoStateFile]).errors = [] := by
  refine ⟨by decide, by decide, ?_, ?_, ?_⟩ <;> decide

/-! ## Event and frame lemmas for the orchestrator -/

theorem countP_evs_notify (q : Event → Bool)
    (hsu : ∀ s, q (Event.stateUpdate s) = false) (cfg : Config) (st : St) :
    (notifyStateUpdate cfg st).events.countP q = st.events.countP q := by
  rw [notifyStateUpdate]
  split
  · simp [hsu]
  · rfl

theorem countP_evs_logThought (q : Event → Bool)
    (hlog : ∀ l, q (Event.log l) = false) (st : St) (a : Str) (p : Parsed) :
    (logThought st a p).events.countP q = st.events.countP q := by
  rw [logThought]
  cases p.thought
  · rfl
  · simp [hlog]

theorem sendPromptO_fst_events (st : St) : (sendPromptO st).1.events = st.events := by
  rw [sendPromptO]
  rcases st.oracle with _ | ⟨e | p, rest⟩ <;> rfl

theorem sendPromptO_fst_ps (st : St) : (sendPromptO st).1.ps = st.ps := by
  rw [sendPromptO]
  rcases st.oracle with _ | ⟨e | p, rest⟩ <;> rfl

theorem sendPromptO_fst_isRunning (st : St) : (sendPromptO st).1.isRunning = st.isRunning := by
  rw [sendPromptO]
  rcases st.oracle with _ | ⟨e | p, rest⟩ <;> rfl

theorem countP_evs_planning (q : Event → Bool)
    (hlog : ∀ l, q (Event.log l) = false)
    (hsu : ∀ s, q (Event.stateUpdate s) = false)
    (hpc : q (Event.phaseChange AgentPhase.PLANNING) = false)
    (cfg : Config) (st : St) :
    (executePlanningPhase cfg st).events.countP q = st.events.countP q := by
  rw [executePlanningPhase]
  split
  · rfl
  split
  · rfl
  rcases h : st.oracle with _ | ⟨e | p, rest⟩
  · simp [sendPromptO, h, List.countP_append, hlog, hpc]
  · simp [sendPromptO, h, List.countP_append, hlog, hpc]
  · cases hpl : p.plan <;>
      simp [sendPromptO, h, hpl, countP_evs_notify q hsu, countP_evs_logThought q hlog,
        List.countP_append, hlog, hpc]

theorem countP_evs_design (q : Event → Bool)
    (hlog : ∀ l, q (Event.log l) = false)
    (hsu : ∀ s, q (Event.stateUpdate s) = false)
    (hpc : q (Event.phaseChange AgentPhase.DESIGNING) = false)
    (cfg : Config) (st : St) :
    (executeDesignPhase cfg st).events.countP q = st.events.countP q := by
  rw [executeDesignPhase]
  split
  · rfl
  split
  · rfl
  rcases h : st.oracle with _ | ⟨e | p, rest⟩
  · simp [sendPromptO, h, List.countP_append, hlog, hpc]
  · simp [sendPromptO, h, List.countP_append, hlog, hpc]
  · cases hds : p.design_system <;>
      simp [sendPromptO, h, hds, countP_evs_notify q hsu, countP_evs_logThought q hlog,
        List.countP_append, hlog, hpc]

theorem countP_evs_architecture (q : Event → Bool)
    (hlog : ∀ l, q (Event.log l) = false)
    (hsu : ∀ s, q (Event.stateUpdate s) = false)
    (hpc : q (Event.phaseChange AgentPhase.ARCHITECTING) = false)
    (cfg : Config) (st : St) :
    (executeArchitecturePhase cfg st).events.countP q = st.events.countP q := by
  rw [executeArchitecturePhase]
  split
  · rfl
  split
  · rfl
  rcases h : st.oracle with _ | ⟨e | p, rest⟩
  · simp [sendPromptO, h, List.countP_append, hlog, hpc]
  · simp [sendPromptO, h, List.countP_append, hlog, hpc]
  · cases hfs : p.file_system <;>
      simp [sendPromptO, h, hfs, countP_evs_notify q hsu, countP_evs_logThought q hlog,
        List.countP_append, hlog, hpc]

theorem countP_evs_coding (q : Event → Bool)
    (hlog : ∀ l, q (Event.log l) = false)
    (hsu : ∀ s, q (Event.stateUpdate s) = false)
    (hpc : q (Event.phaseChange AgentPhase.CODING) = false)
    (cfg : Config) (now : Str) (st : St) :
    (executeCodingPhase cfg now st).events.countP q = st.events.countP q := by
  rw [executeCodingPhase]
  split
  · rfl
  split
  · rfl
  rcases h : st.oracle with _ | ⟨e | p, rest⟩
  · simp [sendPromptO, h, List.countP_append, hlog, hpc]
  · simp [sendPromptO, h, List.countP_append, hlog, hpc]
  · cases hfi : p.files <;>
      simp [sendPromptO, h, hfi, countP_evs_notify q hsu, countP_evs_logThought q hlog,
        List.countP_append, hlog, hpc]

theorem countP_evs_applyFixesFrom (q : Event → Bool)
    (hlog : ∀ l, q (Event.log l) = false) (now : Str) :
    ∀ (fixes : List PatchFix) (idx : Nat) (fs : List FileEntry) (evs : List Event),
    ((applyFixesFrom now idx fs evs fixes).2).countP q = evs.countP q := by
  intro fixes
  induction fixes with
  | nil => intro idx fs evs; rfl
  | cons fix rest ih =>
    intro idx fs evs
    rw [applyFixesFrom]
    split <;> rw [ih] <;> simp [List.countP_append, hlog]

theorem countP_evs_patching (q : Event → Bool)
    (hlog : ∀ l, q (Event.log l) = false)
    (hsu : ∀ s, q (Event.stateUpdate s) = false)
    (hpc : q (Event.phaseChange AgentPhase.PATCHING) = false)
    (cfg : Config) (now : Str) (st : St) :
    (executePatchingPhase cfg now st).events.countP q = st.events.countP q := by
  rw [executePatchingPhase]
  split
  · rfl
  split
  · rfl
  rcases h : st.oracle with _ | ⟨e | p, rest⟩
  · simp [sendPromptO, h, List.countP_append, hlog, hpc]
  · simp [sendPromptO, h, List.countP_append, hlog, hpc]
  · by_cases hh : p.request_human_help
    · simp [sendPromptO, h, hh, countP_evs_logThought q hlog, List.countP_append, hlog, hpc]
    · cases hfx : p.fixes <;>
        simp [sendPromptO, h, hh, hfx, countP_evs_notify q hsu, countP_evs_logThought q hlog,
          countP_evs_applyFixesFrom q hlog, List.countP_append, hlog, hpc]

theorem countP_evs_healPatched (q : Event → Bool)
    (hlog : ∀ l, q (Event.log l) = false)
    (hsu : ∀ s, q (Event.stateUpdate s) = false)
    (hpc : q (Event.phaseChange AgentPhase.PATCHING) = false)
    (cfg : Config) (now : Str) (st : St) :
    (healPatched cfg now st).events.countP q = st.events.countP q := by
  rw [healPatched, countP_evs_patching q hlog hsu hpc]
  simp [List.countP_append, hlog]

theorem countP_evs_healStep (q : Event → Bool)
    (hlog : ∀ l, q (Event.log l) = false)
    (hsu : ∀ s, q (Event.stateUpdate s) = false)
    (hpc : q (Event.phaseChange AgentPhase.PATCHING) = false)
    (cfg : Config) (now : Str) (res : CompilationResult) (st : St) :
    ((healStep cfg now res st).1).events.countP q = st.events.countP q := by
  rw [healStep]
  split
  · exact countP_evs_healPatched q hlog hsu hpc cfg now st
  · dsimp only
    split
    · simp [List.countP_append, hlog, countP_evs_healPatched q hlog hsu hpc]
    · split <;> simp [List.countP_append, hlog, countP_evs_healPatched q hlog hsu hpc]

theorem countP_evs_healLoop (q : Event → Bool)
    (hlog : ∀ l, q (Event.log l) = false)
    (hsu : ∀ s, q (Event.stateUpdate s) = false)
    (hpc : q (Event.phaseChange AgentPhase.PATCHING) = false)
    (cfg : Config) (now : Str) (res : CompilationResult) :
    ∀ (fuel : Nat) (st : St),
    ((healLoop cfg now res fuel st).1).events.countP q = st.events.countP q := by
  intro fuel
  induction fuel with
  | zero => intro st; rfl
  | succ fuel ih =>
    intro st
    rw [healLoop]
    split
    · dsimp only
      split
      · exact countP_evs_healStep q hlog hsu hpc cfg now res st
      · rw [ih, countP_evs_healStep q hlog hsu hpc]
    · rfl

theorem countP_evs_heal (q : Event → Bool)
    (hlog : ∀ l, q (Event.log l) = false)
    (hsu : ∀ s, q (Event.stateUpdate s) = false)
    (hpc : q (Event.phaseChange AgentPhase.PATCHING) = false)
    (cfg : Config) (now : Str) (st : St) :
    (executeCompilationAndHealing cfg now st).events.countP q = st.events.countP q := by
  rw [executeCompilationAndHealing]
  split
  · rfl
  split
  · rfl
  dsimp only
  split
  · simp [List.countP_append, hlog]
  · split
    · simp [List.countP_append, hlog]
    · split
      · simp [List.countP_append, hlog, countP_evs_healLoop q hlog hsu hpc]
      · split <;> simp [List.countP_append, hlog, countP_evs_healLoop q hlog hsu hpc]

theorem countP_evs_afterCoding (q : Event → Bool)
    (hlog : ∀ l, q (Event.log l) = false)
    (hsu : ∀ s, q (Event.stateUpdate s) = false)
    (hpc1 : q (Event.phaseChange AgentPhase.PLANNING) = false)
    (hpc2 : q (Event.phaseChange AgentPhase.DESIGNING) = false)
    (hpc3 : q (Event.phaseChange AgentPhase.ARCHITECTING) = false)
    (hpc4 : q (Event.phaseChange AgentPhase.CODING) = false)
    (cfg : Config) (now userPrompt : Str) (st : St) :
    (afterCoding cfg now userPrompt st).events.countP q = st.events.countP q := by
  rw [afterCoding, countP_evs_coding q hlog hsu hpc4, countP_evs_architecture q hlog hsu hpc3,
    countP_evs_design q hlog hsu hpc2, countP_evs_planning q hlog hsu hpc1]
  simp [List.countP_append, hlog]

theorem countP_evs_runAI (q : Event → Bool)
    (hlog : ∀ l, q (Event.log l) = false)
    (hsu : ∀ s, q (Event.stateUpdate s) = false)
    (hpcAll : ∀ p, q (Event.phaseChange p) = false)
    (cfg : Config) (now userPrompt : Str) (st : St) :
    (runAIWorkflow cfg now userPrompt st).events.countP q = st.events.countP q := by
  rw [runAIWorkflow]
  split
  · rfl
  dsimp only
  split
  · rw [countP_evs_heal q hlog hsu (hpcAll _),
      countP_evs_afterCoding q hlog hsu (hpcAll _) (hpcAll _) (hpcAll _) (hpcAll _)]
  · simp [List.countP_append, hlog, hpcAll,
      countP_evs_heal q hlog hsu (hpcAll AgentPhase.PATCHING),
      countP_evs_afterCoding q hlog hsu (hpcAll AgentPhase.PLANNING)
        (hpcAll AgentPhase.DESIGNING) (hpcAll AgentPhase.ARCHITECTING)
        (hpcAll AgentPhase.CODING)]

theorem countP_evs_runSimulation (q : Event → Bool)
    (hlog : ∀ l, q (Event.log l) = false)
    (hpcAll : ∀ p, q (Event.phaseChange p) = false) :
    ∀ (steps : List SimStep) (st : St),
    (runSimulation steps st).events.countP q = st.events.countP q := by
  intro steps
  induction steps with
  | nil => intro st; rfl
  | cons step rest ih =>
    intro st
    rw [runSimulation]
    split
    · rfl
    · rw [ih]
      simp [List.countP_append, hlog, hpcAll]

theorem terminal_append (st1 : St) (h : st1.events.countP isTerminalEvt = 0) :
    ∃ pre e, ((match st1.err with
      | none => emitEvent st1 Event.complete
      | some msg => { emitEvent st1 (Event.error msg) with err := none }).events = pre ++ [e]) ∧
      isTerminalEvt e = true ∧ pre.countP isTerminalEvt = 0 := by
  rcases herr : st1.err with _ | msg
  · exact ⟨st1.events, Event.complete, by simp, rfl, h⟩
  · exact ⟨st1.events, Event.error msg, by simp, rfl, h⟩

/-- C9: for every run started via `start`, exactly one of the
`onComplete`/`onError` callbacks is invoked, it is invoked exactly once,
and it is the terminal event of the run: the event trace is a prefix free
of terminal events followed by a single terminal event. -/
theorem c9_exactly_one_terminal (cfg : Config) (simSteps : List SimStep)
    (apiAvailable : Bool) (id now userPrompt : Str)
    (oracle : List (Except Str Parsed)) :
    ∃ pre e, (start cfg simSteps apiAvailable id now userPrompt oracle).events = pre ++ [e] ∧
      isTerminalEvt e = true ∧ pre.countP isTerminalEvt = 0 := by
  have hlog : ∀ l, isTerminalEvt (Event.log l) = false := fun _ => rfl
  have hsu : ∀ s, isTerminalEvt (Event.stateUpdate s) = false := fun _ => rfl
  have hpcAll : ∀ p, isTerminalEvt (Event.phaseChange p) = false := fun _ => rfl
  have h0 : (mkStartState id userPrompt oracle).events.countP isTerminalEvt = 0 := rfl
  rw [start]
  dsimp only
  rcases hdm : determineMode cfg.mode apiAvailable with e | m
  · dsimp only
    exact ⟨(mkStartState id userPrompt oracle).events, Event.error e, by simp, rfl, h0⟩
  · cases m with
    | simulation =>
      dsimp only
      exact terminal_append _
        (by rw [countP_evs_runSimulation isTerminalEvt hlog hpcAll]; exact h0)
    | ai =>
      dsimp only
      exact terminal_append _
        (by rw [countP_evs_runAI isTerminalEvt hlog hsu hpcAll]; exact h0)
    | hybrid =>
      dsimp only
      rcases herrA : (runAIWorkflow cfg now userPrompt
          (mkStartState id userPrompt oracle)).err with _ | msg
      · exact terminal_append _
          (by rw [countP_evs_runAI isTerminalEvt hlog hsu hpcAll]; exact h0)
      · refine terminal_append _ ?_
        rw [countP_evs_runSimulation isTerminalEvt hlog hpcAll]
        simp [List.countP_append, hlog,
          countP_evs_runAI isTerminalEvt hlog hsu hpcAll cfg now userPrompt
            (mkStartState id userPrompt oracle)]
        intro a ha
        simp [mkStartState] at ha

theorem frame_planning (cfg : Config) (st : St) :
    (executePlanningPhase cfg st).isRunning = st.isRunning ∧
    (executePlanningPhase cfg st).ps.iteration_count = st.ps.iteration_count ∧
    (executePlanningPhase cfg st).ps.max_iterations = st.ps.max_iterations := by
  rw [executePlanningPhase]
  split
  · exact ⟨rfl, rfl, rfl⟩
  split
  · exact ⟨rfl, rfl, rfl⟩
  rcases h : st.oracle with _ | ⟨e | p, rest⟩
  · simp [sendPromptO, h]
  · simp [sendPromptO, h]
  · cases hpl : p.plan <;> simp [sendPromptO, h, hpl]

theorem frame_design (cfg : Config) (st : St) :
    (executeDesignPhase cfg st).isRunning = st.isRunning ∧
    (executeDesignPhase cfg st).ps.iteration_count = st.ps.iteration_count ∧
    (executeDesignPhase cfg st).ps.max_iterations = st.ps.max_iterations := by
  rw [executeDesignPhase]
  split
  · exact ⟨rfl, rfl, rfl⟩
  split
  · exact ⟨rfl, rfl, rfl⟩
  rcases h : st.oracle with _ | ⟨e | p, rest⟩
  · simp [sendPromptO, h]
  · simp [sendPromptO, h]
  · cases hds : p.design_system <;> simp [sendPromptO, h, hds]

theorem frame_architecture (cfg : Config) (st : St) :
    (executeArchitecturePhase cfg st).isRunning = st.isRunning ∧
    (executeArchitecturePhase cfg st).ps.iteration_count = st.ps.iteration_count ∧
    (executeArchitecturePhase cfg st).ps.max_iterations = st.ps.max_iterations := by
  rw [executeArchitecturePhase]
  split
  · exact ⟨rfl, rfl, rfl⟩
  split
  · exact ⟨rfl, rfl, rfl⟩
  rcases h : st.oracle with _ | ⟨e | p, rest⟩
  · simp [sendPromptO, h]
  · simp [sendPromptO, h]
  · cases hfs : p.file_system <;> simp [sendPromptO, h, hfs]

theorem frame_coding (cfg : Config) (now : Str) (st : St) :
    (executeCodingPhase cfg now st).isRunning = st.isRunning ∧
    (executeCodingPhase cfg now st).ps.iteration_count = st.ps.iteration_count ∧
    (executeCodingPhase cfg now st).ps.max_iterations = st.ps.max_iterations := by
  rw [executeCodingPhase]
  split
  · exact ⟨rfl, rfl, rfl⟩
  split
  · exact ⟨rfl, rfl, rfl⟩
  rcases h : st.oracle with _ | ⟨e | p, rest⟩
  · simp [sendPromptO, h]
  · simp [sendPromptO, h]
  · cases hfi : p.files <;> simp [sendPromptO, h, hfi]

theorem frame_afterCoding (cfg : Config) (now userPrompt : Str) (st : St) :
    (afterCoding cfg now userPrompt st).isRunning = st.isRunning ∧
    (afterCoding cfg now userPrompt st).ps.iteration_count = st.ps.iteration_count ∧
    (afterCoding cfg now userPrompt st).ps.max_iterations = st.ps.max_iterations := by
  rw [afterCoding]
  obtain ⟨c1, c2, c3⟩ := frame_coding cfg now (executeArchitecturePhase cfg
    (executeDesignPhase cfg (executePlanningPhase cfg
      (emitLog (emitLog st (str "SYSTEM")
        (str "🚀 Initializing Agentic Studio Pro - Closed-Loop Architecture") LogType.system)
        (str "SYSTEM") (str "User Intent: \"" ++ userPrompt ++ str "\"") LogType.info))))
  obtain ⟨a1, a2, a3⟩ := frame_architecture cfg (executeDesignPhase cfg (executePlanningPhase cfg
    (emitLog (emitLog st (str "SYSTEM")
      (str "🚀 Initializing Agentic Studio Pro - Closed-Loop Architecture") LogType.system)
      (str "SYSTEM") (str "User Intent: \"" ++ userPrompt ++ str "\"") LogType.info)))
  obtain ⟨d1, d2, d3⟩ := frame_design cfg (executePlanningPhase cfg
    (emitLog (emitLog st (str "SYSTEM")
      (str "🚀 Initializing Agentic Studio Pro - Closed-Loop Architecture") LogType.system)
      (str "SYSTEM") (str "User Intent: \"" ++ userPrompt ++ str "\"") LogType.info))
  obtain ⟨p1, p2, p3⟩ := frame_planning cfg
    (emitLog (emitLog st (str "SYSTEM")
      (str "🚀 Initializing Agentic Studio Pro - Closed-Loop Architecture") LogType.system)
      (str "SYSTEM") (str "User Intent: \"" ++ userPrompt ++ str "\"") LogType.info)
  refine ⟨?_, ?_, ?_⟩
  · rw [c1, a1, d1, p1]; rfl
  · rw [c2, a2, d2, p2]; rfl
  · rw [c3, a3, d3, p3]; rfl

theorem frame_patching (cfg : Config) (now : Str) (st : St) :
    (executePatchingPhase cfg now st).isRunning = st.isRunning ∧
    (executePatchingPhase cfg now st).ps.max_iterations = st.ps.max_iterations ∧
    ((executePatchingPhase cfg now st).ps.iteration_count = st.ps.iteration_count ∨
      (executePatchingPhase cfg now st).ps.iteration_count = st.ps.max_iterations) := by
  rw [executePatchingPhase]
  split
  · exact ⟨rfl, rfl, Or.inl rfl⟩
  split
  · exact ⟨rfl, rfl, Or.inl rfl⟩
  rcases h : st.oracle with _ | ⟨e | p, rest⟩
  · simp [sendPromptO, h]
  · simp [sendPromptO, h]
  · by_cases hh : p.request_human_help
    · simp [sendPromptO, h, hh]
    · cases hfx : p.fixes <;> simp [sendPromptO, h, hh, hfx]

theorem frame_healPatched (cfg : Config) (now : Str) (st : St) :
    (healPatched cfg now st).isRunning = st.isRunning ∧
    (healPatched cfg now st).ps.max_iterations = st.ps.max_iterations ∧
    ((healPatched cfg now st).ps.iteration_count = st.ps.iteration_count + 1 ∨
      (healPatched cfg now st).ps.iteration_count = st.ps.max_iterations) := by
  rw [healPatched]
  have key : ∀ (Y : St), Y.isRunning = st.isRunning →
      Y.ps.iteration_count = st.ps.iteration_count + 1 →
      Y.ps.max_iterations = st.ps.max_iterations →
      (executePatchingPhase cfg now Y).isRunning = st.isRunning ∧
      (executePatchingPhase cfg now Y).ps.max_iterations = st.ps.max_iterations ∧
      ((executePatchingPhase cfg now Y).ps.iteration_count = st.ps.iteration_count + 1 ∨
        (executePatchingPhase cfg now Y).ps.iteration_count = st.ps.max_iterations) := by
    intro Y h1 h2 h3
    obtain ⟨g1, g2, g3⟩ := frame_patching cfg now Y
    refine ⟨g1.trans h1, g2.trans h3, ?_⟩
    rcases g3 with g | g
    · exact Or.inl (by rw [g, h2])
    · exact Or.inr (by rw [g, h3])
  exact key _ (by simp) (by simp) (by simp)

theorem frame_healStep (cfg : Config) (now : Str) (res : CompilationResult) (st : St) :
    (healStep cfg now res st).1.isRunning = st.isRunning ∧
    (healStep cfg now res st).1.ps.max_iterations = st.ps.max_iterations ∧
    ((healStep cfg now res st).1.ps.iteration_count = st.ps.iteration_count + 1 ∨
      (healStep cfg now res st).1.ps.iteration_count = st.ps.max_iterations) := by
  rw [healStep]
  obtain ⟨g1, g2, g3⟩ := frame_healPatched cfg now st
  split
  · exact ⟨g1, g2, g3⟩
  · dsimp only
    split
    · exact ⟨g1, g2, g3⟩
    · split
      · exact ⟨g1, g2, g3⟩
      · exact ⟨g1, g2, g3⟩

theorem frame_healLoop (cfg : Config) (now : Str) (res : CompilationResult) :
    ∀ (fuel : Nat) (st : St), st.ps.iteration_count ≤ st.ps.max_iterations →
    (healLoop cfg now res fuel st).1.isRunning = st.isRunning ∧
    (healLoop cfg now res fuel st).1.ps.max_iterations = st.ps.max_iterations ∧
    st.ps.iteration_count ≤ (healLoop cfg now res fuel st).1.ps.iteration_count ∧
    (healLoop cfg now res fuel st).1.ps.iteration_count ≤ st.ps.max_iterations := by
  intro fuel
  induction fuel with
  | zero => intro st h; exact ⟨rfl, rfl, Nat.le_refl _, h⟩
  | succ fuel ih =>
    intro st h
    rw [healLoop]
    split
    case isTrue hcond =>
      rw [Bool.and_eq_true, decide_eq_true_eq] at hcond
      obtain ⟨g1, g2, g3⟩ := frame_healStep cfg now res st
      have hbounds : st.ps.iteration_count + 1 ≤ (healStep cfg now res st).1.ps.iteration_count ∧
          (healStep cfg now res st).1.ps.iteration_count ≤ st.ps.max_iterations := by
        rcases g3 with g | g
        · exact ⟨by omega, by rw [g]; omega⟩
        · refine ⟨by rw [g]; omega, by rw [g]⟩
      dsimp only
      split
      · exact ⟨g1, g2, by omega, hbounds.2⟩
      · obtain ⟨i1, i2, i3, i4⟩ := ih (healStep cfg now res st).1 (by rw [g2]; omega)
        refine ⟨i1.trans g1, i2.trans g2, by omega, by rw [g2] at i4; omega⟩
    case isFalse => exact ⟨rfl, rfl, Nat.le_refl _, h⟩

theorem frame_healTail (cfg : Config) (now : Str) (R : CompilationResult) (st0 Y : St)
    (h1 : Y.isRunning = st0.isRunning) (h2 : Y.ps.iteration_count = st0.ps.iteration_count)
    (h3 : Y.ps.max_iterations = st0.ps.max_iterations)
    (hle : st0.ps.iteration_count ≤ st0.ps.max_iterations) :
    (if (healLoop cfg now R (Y.ps.max_iterations + 1) Y).2 = true
      then (healLoop cfg now R (Y.ps.max_iterations + 1) Y).1
      else
        if (healLoop cfg now R (Y.ps.max_iterations + 1) Y).1.ps.iteration_count ≥
            (healLoop cfg now R (Y.ps.max_iterations + 1) Y).1.ps.max_iterations then
          emitLog (emitLog (healLoop cfg now R (Y.ps.max_iterations + 1) Y).1 (str "PATCHER")
            (str "🛑 Max healing iterations reached. Requesting human assistance.")
            LogType.error)
            (str "SYSTEM")
            (str "The system encountered persistent errors. Please review the logs.")
            LogType.error
        else (healLoop cfg now R (Y.ps.max_iterations + 1) Y).1).isRunning = st0.isRunning ∧
    (if (healLoop cfg now R (Y.ps.max_iterations + 1) Y).2 = true
      then (healLoop cfg now R (Y.ps.max_iterations + 1) Y).1
      else
        if (healLoop cfg now R (Y.ps.max_iterations + 1) Y).1.ps.iteration_count ≥
            (healLoop cfg now R (Y.ps.max_iterations + 1) Y).1.ps.max_iterations then
          emitLog (emitLog (healLoop cfg now R (Y.ps.max_iterations + 1) Y).1 (str "PATCHER")
            (str "🛑 Max healing iterations reached. Requesting human assistance.")
            LogType.error)
            (str "SYSTEM")
            (str "The system encountered persistent errors. Please review the logs.")
            LogType.error
        else (healLoop cfg now R (Y.ps.max_iterations + 1) Y).1).ps.max_iterations =
      st0.ps.max_iterations ∧
    st0.ps.iteration_count ≤
      (if (healLoop cfg now R (Y.ps.max_iterations + 1) Y).2 = true
      then (healLoop cfg now R (Y.ps.max_iterations + 1) Y).1
      else
        if (healLoop cfg now R (Y.ps.max_iterations + 1) Y).1.ps.iteration_count ≥
            (healLoop cfg now R (Y.ps.max_iterations + 1) Y).1.ps.max_iterations then
          emitLog (emitLog (healLoop cfg now R (Y.ps.max_iterations + 1) Y).1 (str "PATCHER")
            (str "🛑 Max healing iterations reached. Requesting human assistance.")
            LogType.error)
            (str "SYSTEM")
            (str "The system encountered persistent errors. Please review the logs.")
            LogType.error
        else (healLoop cfg now R (Y.ps.max_iterations + 1) Y).1).ps.iteration_count ∧
    (if (healLoop cfg now R (Y.ps.max_iterations + 1) Y).2 = true
      then (healLoop cfg now R (Y.ps.max_iterations + 1) Y).1
      else
        if (healLoop cfg now R (Y.ps.max_iterations + 1) Y).1.ps.iteration_count ≥
            (healLoop cfg now R (Y.ps.max_iterations + 1) Y).1.ps.max_iterations then
          emitLog (emitLog (healLoop cfg now R (Y.ps.max_iterations + 1) Y).1 (str "PATCHER")
            (str "🛑 Max healing iterations reached. Requesting human assistance.")
            LogType.error)
            (str "SYSTEM")
            (str "The system encountered persistent errors. Please review the logs.")
            LogType.error
        else (healLoop cfg now R (Y.ps.max_iterations + 1) Y).1).ps.iteration_count ≤
      st0.ps.max_iterations := by
  obtain ⟨l1, l2, l3, l4⟩ := frame_healLoop cfg now R (Y.ps.max_iterations + 1) Y (by omega)
  split
  · exact ⟨l1.trans h1, l2.trans h3, by omega, by omega⟩
  · split
    · refine ⟨?_, ?_, ?_, ?_⟩
      · simp only [emitLog_def, emitEvent_isRunning]
        exact l1.trans h1
      · simp only [emitLog_def, emitEvent_ps]
        omega
      · simp only [emitLog_def, emitEvent_ps]
        omega
      · simp only [emitLog_def, emitEvent_ps]
        omega
    · exact ⟨l1.trans h1, l2.trans h3, by omega, by omega⟩

theorem frame_heal (cfg : Config) (now : Str) (st : St)
    (h : st.ps.iteration_count ≤ st.ps.max_iterations) :
    (executeCompilationAndHealing cfg now st).isRunning = st.isRunning ∧
    (executeCompilationAndHealing cfg now st).ps.max_iterations = st.ps.max_iterations ∧
    st.ps.iteration_count ≤ (executeCompilationAndHealing cfg now st).ps.iteration_count ∧
    (executeCompilationAndHealing cfg now st).ps.iteration_count ≤ st.ps.max_iterations := by
  rw [executeCompilationAndHealing]
  split
  · exact ⟨rfl, rfl, Nat.le_refl _, h⟩
  split
  · exact ⟨rfl, rfl, Nat.le_refl _, h⟩
  dsimp only
  split
  · exact ⟨rfl, rfl, Nat.le_refl _, h⟩
  · split
    · exact ⟨rfl, rfl, Nat.le_refl _, h⟩
    · exact frame_healTail cfg now _ st _ (by simp) (by simp) (by simp) h

theorem frame_runSimulation : ∀ (steps : List SimStep) (st : St),
    (runSimulation steps st).ps = st.ps ∧
    (runSimulation steps st).isRunning = st.isRunning := by
  intro steps
  induction steps with
  | nil => intro st; exact ⟨rfl, rfl⟩
  | cons step rest ih =>
    intro st
    rw [runSimulation]
    split
    · exact ⟨rfl, rfl⟩
    · obtain ⟨h1, h2⟩ := ih (emitEvent (emitEvent { st with currentPhase := step.phase }
        (Event.phaseChange step.phase)) (Event.log step.log))
      exact ⟨h1, h2⟩

theorem frame_runAI (cfg : Config) (now userPrompt : Str) (st : St)
    (h : st.ps.iteration_count ≤ st.ps.max_iterations) :
    (runAIWorkflow cfg now userPrompt st).isRunning = st.isRunning ∧
    (runAIWorkflow cfg now userPrompt st).ps.max_iterations = st.ps.max_iterations ∧
    st.ps.iteration_count ≤ (runAIWorkflow cfg now userPrompt st).ps.iteration_count ∧
    (runAIWorkflow cfg now userPrompt st).ps.iteration_count ≤ st.ps.max_iterations := by
  rw [runAIWorkflow]
  split
  · exact ⟨rfl, rfl, Nat.le_refl _, h⟩
  dsimp only
  obtain ⟨a1, a2, a3⟩ := frame_afterCoding cfg now userPrompt st
  obtain ⟨g1, g2, g3, g4⟩ := frame_heal cfg now (afterCoding cfg now userPrompt st)
    (by omega)
  split
  · refine ⟨g1.trans a1, g2.trans a3, by omega, by omega⟩
  · refine ⟨?_, ?_, ?_, ?_⟩ <;>
      simp only [emitLog_def, emitEvent_isRunning, emitEvent_ps, setPhase_isRunning,
        setPhase_ps_iteration, setPhase_ps_max]
    · exact g1.trans a1
    · exact g2.trans a3
    · omega
    · omega

theorem start_count_le_max (cfg : Config) (simSteps : List SimStep) (avail : Bool)
    (id now userPrompt : Str) (oracle : List (Except Str Parsed)) :
    (start cfg simSteps avail id now userPrompt oracle).ps.iteration_count ≤
      (start cfg simSteps avail id now userPrompt oracle).ps.max_iterations := by
  have h0c : (mkStartState id userPrompt oracle).ps.iteration_count = 0 := rfl
  have h0m : (mkStartState id userPrompt oracle).ps.max_iterations = 3 := rfl
  rw [start]
  dsimp only
  have hterm : ∀ (W : St), W.ps.iteration_count ≤ W.ps.max_iterations →
      ((match W.err with
        | none => emitEvent W Event.complete
        | some msg =>
          { emitEvent W (Event.error msg) with err := none }).ps.iteration_count ≤
        (match W.err with
        | none => emitEvent W Event.complete
        | some msg =>
          { emitEvent W (Event.error msg) with err := none }).ps.max_iterations) := by
    intro W hW
    rcases W.err with _ | msg <;> simpa using hW
  rcases hdm : determineMode cfg.mode avail with e | m
  · dsimp only
    simpa using hterm { mkStartState id userPrompt oracle with
      err := some (str "AI mode requested but Gemini API key not configured") }
      (by simp [mkStartState, createInitialState])
  · cases m with
    | simulation =>
      dsimp only
      obtain ⟨h1, _⟩ := frame_runSimulation simSteps (mkStartState id userPrompt oracle)
      exact hterm _ (by rw [h1]; omega)
    | ai =>
      dsimp only
      obtain ⟨_, g2, _, g4⟩ := frame_runAI cfg now userPrompt
        (mkStartState id userPrompt oracle) (by omega)
      exact hterm _ (by omega)
    | hybrid =>
      dsimp only
      obtain ⟨_, g2, _, g4⟩ := frame_runAI cfg now userPrompt
        (mkStartState id userPrompt oracle) (by omega)
      rcases herrA : (runAIWorkflow cfg now userPrompt
          (mkStartState id userPrompt oracle)).err with _ | msg
      · dsimp only
        exact hterm _ (by omega)
      · dsimp only
        obtain ⟨s1, _⟩ := frame_runSimulation simSteps
          (emitLog { runAIWorkflow cfg now userPrompt (mkStartState id userPrompt oracle)
            with err := none } (str "SYSTEM")
            (str "AI unavailable, running in demo mode...") LogType.info)
        refine hterm _ ?_
        rw [s1]
        simp only [emitLog_def, emitEvent_ps]
        omega

theorem healPatched_no_help (cfg : Config) (now : Str) (st : St) (p : Parsed)
    (rest : List (Except Str Parsed)) (herr : st.err = none) (hrun : st.isRunning = true)
    (horacle : st.oracle = Except.ok p :: rest) (hh : p.request_human_help = false) :
    (healPatched cfg now st).ps.iteration_count = st.ps.iteration_count + 1 ∧
    (healPatched cfg now st).err = none := by
  cases hfx : p.fixes <;>
    simp [healPatched, executePatchingPhase, sendPromptO, herr, hrun, horacle, hh, hfx]

theorem healPatched_help (cfg : Config) (now : Str) (st : St) (p : Parsed)
    (rest : List (Except Str Parsed)) (herr : st.err = none) (hrun : st.isRunning = true)
    (horacle : st.oracle = Except.ok p :: rest) (hh : p.request_human_help = true) :
    (healPatched cfg now st).ps.iteration_count = st.ps.max_iterations ∧
    (healPatched cfg now st).err = none := by
  simp [healPatched, executePatchingPhase, sendPromptO, herr, hrun, horacle, hh]

theorem healStep_count_no_help (cfg : Config) (now : Str) (res : CompilationResult)
    (st : St) (p : Parsed) (rest : List (Except Str Parsed))
    (herr : st.err = none) (hrun : st.isRunning = true)
    (horacle : st.oracle = Except.ok p :: rest) (hh : p.request_human_help = false) :
    (healStep cfg now res st).1.ps.iteration_count = st.ps.iteration_count + 1 := by
  obtain ⟨hc, he⟩ := healPatched_no_help cfg now st p rest herr hrun horacle hh
  rw [healStep]
  split
  case isTrue h => rw [he] at h; simp at h
  · dsimp only
    split
    · simp [hc]
    · split <;> simp [hc]

theorem healStep_count_help (cfg : Config) (now : Str) (res : CompilationResult)
    (st : St) (p : Parsed) (rest : List (Except Str Parsed))
    (herr : st.err = none) (hrun : st.isRunning = true)
    (horacle : st.oracle = Except.ok p :: rest) (hh : p.request_human_help = true) :
    (healStep cfg now res st).1.ps.iteration_count = st.ps.max_iterations := by
  obtain ⟨hc, he⟩ := healPatched_help cfg now st p rest herr hrun horacle hh
  rw [healStep]
  split
  case isTrue h => rw [he] at h; simp at h
  · dsimp only
    split
    · simp [hc]
    · split <;> simp [hc]

theorem isPrefixOf_append_self : ∀ (p s : Str), p.isPrefixOf (p ++ s) = true := by
  intro p
  induction p with
  | nil => intro s; simp
  | cons a q ih =>
    intro s
    rw [List.cons_append, List.isPrefixOf_cons₂]
    simp [ih]

theorem isStagnationLog_attempt (n : Str) :
    isStagnationLog (Event.log ⟨str "PATCHER",
      str "⚠️ Same error persists after attempt " ++ n, LogType.error, none⟩) = true := by
  show (str "⚠️ Same error persists").isPrefixOf
    (str "⚠️ Same error persists after attempt " ++ n) = true
  have h : str "⚠️ Same error persists after attempt " =
      str "⚠️ Same error persists" ++ str " after attempt " := by decide
  rw [h, List.append_assoc]
  exact isPrefixOf_append_self _ _

theorem healStep_stagnation (cfg : Config) (now : Str) (res : CompilationResult) (st : St)
    (hperr : (healPatched cfg now st).err = none)
    (hfail : (validateCode (healPatched cfg now st).ps.file_system).success = false) :
    (healStep cfg now res st).1.events.countP isStagnationLog =
      (healPatched cfg now st).events.countP isStagnationLog +
      (if (validateCode (healPatched cfg now st).ps.file_system).stderr = res.stderr
        then 1 else 0) ∧
    (healStep cfg now res st).2 = false := by
  rw [healStep]
  split
  case isTrue h => rw [hperr] at h; simp at h
  · dsimp only
    split
    case isTrue h => exact absurd h (by simp [hfail])
    case isFalse h =>
      split
      case isTrue hst =>
        constructor
        · simp [List.countP_append, isStagnationLog_attempt, hst]
        · rfl
      case isFalse hst =>
        constructor
        · simp [hst]
        · rfl

theorem heal_fatal_key (cfg : Config) (now : Str) (Y : St)
    (h1 : Y.err = none) (h2 : Y.isRunning = true)
    (h3 : (validateCode Y.ps.file_system).success = false)
    (h4 : isRecoverableError (validateCode Y.ps.file_system) = false) :
    (executeCompilationAndHealing cfg now Y).err =
      some (str "Fatal build error: " ++
        (validateCode Y.ps.file_system).stderr.take 200) ∧
    (executeCompilationAndHealing cfg now Y).ps.iteration_count = Y.ps.iteration_count ∧
    (executeCompilationAndHealing cfg now Y).events.countP isPatchingChange =
      Y.events.countP isPatchingChange := by
  have hlogPC : ∀ l, isPatchingChange (Event.log l) = false := fun _ => rfl
  simp [executeCompilationAndHealing, h1, h2, h3, h4, List.countP_append, hlogPC]

theorem start_ai (hasSU : Bool) (simSteps : List SimStep) (id now userPrompt : Str)
    (oracle : List (Except Str Parsed)) :
    start ⟨AgentMode.ai, hasSU⟩ simSteps true id now userPrompt oracle =
      (let st1 := runAIWorkflow ⟨AgentMode.ai, hasSU⟩ now userPrompt
        (mkStartState id userPrompt oracle)
      let st2 := match st1.err with
        | none => emitEvent st1 Event.complete
        | some e => { emitEvent st1 (Event.error e) with err := none }
      { st2 with isRunning := false }) := rfl

theorem runAI_err_none (cfg : Config) (now userPrompt : Str) (st : St)
    (h : st.err = none) :
    runAIWorkflow cfg now userPrompt st =
      (let stH := executeCompilationAndHealing cfg now (afterCoding cfg now userPrompt st)
      if stH.err.isSome then stH
      else emitLog (setPhase stH AgentPhase.READY) (str "SYSTEM")
        (str "✅ Application ready! All agents completed successfully.")
        LogType.success) := by
  rw [runAIWorkflow]
  simp [h]

/-- C5: if the first validation after the Coding phase fails and
`isRecoverableError` returns `false`, the orchestrator (in AI mode) makes
zero Patch attempts — `iteration_count` remains 0 and the Patching phase is
never entered (no `PATCHING` phase-change callback fires) — and the run
terminates immediately with the fatal build error surfaced through
`onError` as the terminal event. -/
theorem c5_unrecoverable_first_validation (hasSU : Bool) (simSteps : List SimStep)
    (id now userPrompt : Str) (oracle : List (Except Str Parsed))
    (herr4 : (afterCoding ⟨AgentMode.ai, hasSU⟩ now userPrompt
      (mkStartState id userPrompt oracle)).err = none)
    (hfail : (validateCode (afterCoding ⟨AgentMode.ai, hasSU⟩ now userPrompt
      (mkStartState id userPrompt oracle)).ps.file_system).success = false)
    (hrec : isRecoverableError (validateCode (afterCoding ⟨AgentMode.ai, hasSU⟩ now userPrompt
      (mkStartState id userPrompt oracle)).ps.file_system) = false) :
    (start ⟨AgentMode.ai, hasSU⟩ simSteps true id now userPrompt oracle).events.getLast? =
      some (Event.error (str "Fatal build error: " ++
        (validateCode (afterCoding ⟨AgentMode.ai, hasSU⟩ now userPrompt
          (mkStartState id userPrompt oracle)).ps.file_system).stderr.take 200)) ∧
    (start ⟨AgentMode.ai, hasSU⟩ simSteps true id now userPrompt oracle).ps.iteration_count
      = 0 ∧
    (start ⟨AgentMode.ai, hasSU⟩ simSteps true id now userPrompt oracle).events.countP
      isPatchingChange = 0 := by
  have hrun4 : (afterCoding ⟨AgentMode.ai, hasSU⟩ now userPrompt
      (mkStartState id userPrompt oracle)).isRunning = true := by
    rw [(frame_afterCoding _ now userPrompt _).1]
    rfl
  have hcount4 : (afterCoding ⟨AgentMode.ai, hasSU⟩ now userPrompt
      (mkStartState id userPrompt oracle)).ps.iteration_count = 0 := by
    rw [(frame_afterCoding _ now userPrompt _).2.1]
    rfl
  have hpc4 : (afterCoding ⟨AgentMode.ai, hasSU⟩ now userPrompt
      (mkStartState id userPrompt oracle)).events.countP isPatchingChange = 0 := by
    rw [countP_evs_afterCoding isPatchingChange (fun _ => rfl) (fun _ => rfl)
      (by decide) (by decide) (by decide) (by decide)]
    rfl
  obtain ⟨k1, k2, k3⟩ := heal_fatal_key ⟨AgentMode.ai, hasSU⟩ now
    (afterCoding ⟨AgentMode.ai, hasSU⟩ now userPrompt (mkStartState id userPrompt oracle))
    herr4 hrun4 hfail hrec
  rw [start_ai, runAI_err_none _ _ _ _ rfl]
  dsimp only
  refine ⟨?_, ?_, ?_⟩ <;>
    simp [k1, k2, k3, hcount4, hpc4, List.getLast?_concat, List.countP_append,
      isPatchingChange]

/-- C1 (amended): `iteration_count` starts at 0 (with `max_iterations`
fixed at 3), is untouched by the four agent phases, never exceeds
`max_iterations`, and is monotonically non-decreasing; each Patch attempt
increments it exactly once, except that an attempt whose patch response
requests human help sets it to `max_iterations` instead. -/
theorem c1_iteration_invariants :
    (∀ id, (createInitialState id).iteration_count = 0 ∧
      (createInitialState id).max_iterations = 3) ∧
    (∀ cfg st, (executePlanningPhase cfg st).ps.iteration_count =
      st.ps.iteration_count) ∧
    (∀ cfg st, (executeDesignPhase cfg st).ps.iteration_count =
      st.ps.iteration_count) ∧
    (∀ cfg st, (executeArchitecturePhase cfg st).ps.iteration_count =
      st.ps.iteration_count) ∧
    (∀ cfg now st, (executeCodingPhase cfg now st).ps.iteration_count =
      st.ps.iteration_count) ∧
    (∀ cfg now res st (p : Parsed) rest, st.err = none → st.isRunning = true →
      st.oracle = Except.ok p :: rest → p.request_human_help = false →
      (healStep cfg now res st).1.ps.iteration_count = st.ps.iteration_count + 1) ∧
    (∀ cfg now res st (p : Parsed) rest, st.err = none → st.isRunning = true →
      st.oracle = Except.ok p :: rest → p.request_human_help = true →
      (healStep cfg now res st).1.ps.iteration_count = st.ps.max_iterations) ∧
    (∀ cfg now res st, st.ps.iteration_count < st.ps.max_iterations →
      st.ps.iteration_count + 1 ≤ (healStep cfg now res st).1.ps.iteration_count ∧
      (healStep cfg now res st).1.ps.iteration_count ≤ st.ps.max_iterations) ∧
    (∀ cfg simSteps avail id now userPrompt oracle,
      (start cfg simSteps avail id now userPrompt oracle).ps.iteration_count ≤
        (start cfg simSteps avail id now userPrompt oracle).ps.max_iterations) := by
  refine ⟨fun id => ⟨rfl, rfl⟩,
    fun cfg st => (frame_planning cfg st).2.1,
    fun cfg st => (frame_design cfg st).2.1,
    fun cfg st => (frame_architecture cfg st).2.1,
    fun cfg now st => (frame_coding cfg now st).2.1,
    fun cfg now res st p rest h1 h2 h3 h4 =>
      healStep_count_no_help cfg now res st p rest h1 h2 h3 h4,
    fun cfg now res st p rest h1 h2 h3 h4 =>
      healStep_count_help cfg now res st p rest h1 h2 h3 h4,
    ?_,
    fun cfg simSteps avail id now userPrompt oracle =>
      start_count_le_max cfg simSteps avail id now userPrompt oracle⟩
  intro cfg now res st hlt
  obtain ⟨_, g2, g3⟩ := frame_healStep cfg now res st
  rcases g3 with g | g <;> omega

/-- Witness for C1 (amended): one healing-loop iteration from a state with
`iteration_count = 0` whose patch payload does not request human help ends
with `iteration_count = 1`. -/
theorem c1_iteration_invariants_witness :
    (healStep cfgAi (str "t") resHeal stHeal).1.ps.iteration_count = 1 := by
  have h := c1_iteration_invariants.2.2.2.2.2.1 cfgAi (str "t") resHeal stHeal
    emptyParsed [] rfl rfl rfl rfl
  exact h.trans (by decide)

set_option maxRecDepth 40000 in
/-- Counterexample to C1 as stated: in the concrete run `runHelp` exactly
one Patch attempt occurs (one healing-attempt log), yet `iteration_count`
ends at 3, not 1 — the attempt whose patch response requested human help
set the counter to `max_iterations` rather than incrementing it exactly
once from 0. -/
theorem c1_iteration_invariants_counterexample :
    runHelp.events.countP isHealAttemptLog = 1 ∧
    runHelp.ps.iteration_count = 3 ∧
    (3 : Nat) ≠ 0 + 1 := by decide

set_option maxRecDepth 40000 in
/-- C2 (exhibiting the code bug): in the concrete run `runStuck` the Patch
loop exits because `iteration_count` reached `max_iterations` with the
build still failing (the escalation log fires once), yet the run
terminates with a plain `onComplete` as terminal event, `onError` never
fires, and the state reaches `READY` — the caller cannot distinguish this
escalation from a successful completion. -/
theorem c2_escalation_not_distinguished :
    runStuck.ps.iteration_count = 3 ∧
    runStuck.ps.max_iterations = 3 ∧
    (validateCode runStuck.ps.file_system).success = false ∧
    runStuck.events.countP isEscalationLog = 1 ∧
    runStuck.events.getLast? = some Event.complete ∧
    runStuck.events.countP isErrorEvt = 0 ∧
    runStuck.ps.status = AgentPhase.READY := by decide

set_option maxRecDepth 40000 in
/-- C7 (amended): the stagnation signal is emitted after a Patch iteration
exactly when the re-validation stderr equals the stderr of the validation
that preceded the loop (the source compares against `result`, which is
never reassigned) — and the loop continues rather than throwing; in the
concrete stuck run all three attempts count toward `iteration_count`, the
loop ends at the cap with the escalation log and no `onError`. -/
theorem c7_stagnation_amended :
    (∀ cfg now res st, (healPatched cfg now st).err = none →
      (validateCode (healPatched cfg now st).ps.file_system).success = false →
      ((healStep cfg now res st).1.events.countP isStagnationLog =
        (healPatched cfg now st).events.countP isStagnationLog +
        (if (validateCode (healPatched cfg now st).ps.file_system).stderr = res.stderr
          then 1 else 0)) ∧
      (healStep cfg now res st).2 = false) ∧
    (runStuck.ps.iteration_count = 3 ∧
      runStuck.events.countP isHealAttemptLog = 3 ∧
      runStuck.events.countP isStagnationLog = 3 ∧
      runStuck.events.countP isEscalationLog = 1 ∧
      runStuck.events.countP isErrorEvt = 0) := by
  constructor
  · intro cfg now res st h1 h2
    exact healStep_stagnation cfg now res st h1 h2
  · decide

set_option maxRecDepth 40000 in
/-- Witness for C7 (amended): a healing iteration whose re-validation
reproduces the pre-loop stderr emits exactly one stagnation signal and
does not stop the loop. -/
theorem c7_stagnation_amended_witness :
    (healStep cfgAi (str "t") resHeal stHeal).1.events.countP isStagnationLog =
      (healPatched cfgAi (str "t") stHeal).events.countP isStagnationLog + 1 ∧
    (healStep cfgAi (str "t") resHeal stHeal).2 = false := by
  have h := c7_stagnation_amended.1 cfgAi (str "t") resHeal stHeal (by decide) (by decide)
  exact ⟨h.1.trans (by decide), h.2⟩

set_option maxRecDepth 40000 in
/-- Counterexample to C7 as stated: in the concrete run `runShift` the
re-validations of attempts 2 and 3 produce identical stderr text (each
identical to the previous attempt's), yet no stagnation signal is ever
emitted, because the source compares against the first validation's stderr
(which differs). -/
theorem c7_stagnation_counterexample :
    (runShift.ps.terminal_logs.map TermLog.stderr)[1]? =
      (runShift.ps.terminal_logs.map TermLog.stderr)[2]? ∧
    (runShift.ps.terminal_logs.map TermLog.stderr)[0]? ≠
      (runShift.ps.terminal_logs.map TermLog.stderr)[1]? ∧
    runShift.events.countP isStagnationLog = 0 ∧
    runShift.ps.iteration_count = 3 ∧
    runShift.events.getLast? = some Event.complete := by decide

set_option maxRecDepth 40000 in
/-- Witness for C5 at the concrete run `runFatal`, whose generated file
path contains the fatal `ENOSPC` pattern. -/
theorem c5_unrecoverable_first_validation_witness :
    runFatal.events.getLast? = some (Event.error (str "Fatal build error: " ++
      (validateCode (afterCoding cfgAi (str "t0") (str "demo app")
        (mkStartState (str "run-4") (str "demo app") oracleFatal)).ps.file_system).stderr.take
          200)) ∧
    runFatal.ps.iteration_count = 0 ∧
    runFatal.events.countP isPatchingChange = 0 := by
  have h := c5_unrecoverable_first_validation false [] (str "run-4") (str "t0")
    (str "demo app") oracleFatal (by decide) (by decide) (by decide)
  exact h
